import Mathlib

/-!
Verification of the CBOR streaming decoder (`src/de.rs` of `cbor_event`).

The decoder is embedded shallowly: the observable state of a
`Deserializer<R>` over a buffered byte source is the sequence of
not-yet-consumed bytes, modelled as a `List Byte`.  Peeking operations
(`get`, `u8` .. `u64`, `cbor_type`, `cbor_expect_type`, `cbor_len`)
never consume in the source (they only call `fill_buf`/`get`), so they
are embedded as pure functions of the state; consuming operations
return the result together with the successor state (the state is also
returned on error, mirroring that the Rust methods mutate `&mut self`
in place).

The auxiliary types `Type`, `Len`, `Special` and the error enumeration
live in sibling modules of the crate that are not part of the given
sources; they are modelled from the specification (see the doc comments
on each).  `u64` values are represented as `Nat` (all values produced
by the byte readers are below `2 ^ 64` by construction); `i64`
arithmetic is modelled with explicit two's-complement wrapping.
-/

/-- A byte of the input stream. -/
abbrev Byte := Fin 256

/-- Modelled from the spec: the primary-type tag enumeration (`Type` in
the crate, not part of the given sources): an 8-valued classification
derived from the top 3 bits of a byte. -/
inductive MajorType where
  | UnsignedInteger
  | NegativeInteger
  | Bytes
  | Text
  | Array
  | Map
  | Tag
  | Special
deriving DecidableEq, Repr

/-- Modelled from the spec: `MajorType::from(peek(0) >> 5)` — the major
type is derived purely from the top 3 bits of the byte. -/
def MajorType.fromByte (b : Byte) : MajorType :=
  match b.val >>> 5 with
  | 0 => MajorType.UnsignedInteger
  | 1 => MajorType.NegativeInteger
  | 2 => MajorType.Bytes
  | 3 => MajorType.Text
  | 4 => MajorType.Array
  | 5 => MajorType.Map
  | 6 => MajorType.Tag
  | _ => MajorType.Special

/-- Modelled from the spec: the length helper type `Len` (not part of
the given sources): either a definite length (a `u64`, here a `Nat`
kept below `2 ^ 64` by construction) or the indefinite marker. -/
inductive Len where
  | Len (n : Nat)
  | Indefinite
deriving DecidableEq, Repr

/-- Modelled from the spec: the `Special` value space of major type 7
(not part of the given sources).  The `Float` payload is the big-endian
unsigned integer value of the extension bytes; the source stores this
integer numerically cast to `f64` (`v as f64`), so the constructor
keeps the exact pre-cast integer. -/
inductive Special where
  | Bool (b : Bool)
  | Null
  | Undefined
  | Float (n : Nat)
  | Break
  | Unassigned (code : Nat)
deriving DecidableEq, Repr

/-- Modelled from the spec: the error taxonomy, restricted to the
variants the decoding engine in `de.rs` can produce.  `Unreachable`
models the two `unreachable!` arms (a panic, never an ordinary return
value); `IoError` models an `std::io` failure such as `read_exact`
hitting the end of the stream. -/
inductive Error where
  | NotEnough (available requested : Nat)
  | Expected (expected actual : MajorType)
  | UnknownLenType (b : Nat)
  | IndefiniteLenNotSupported (t : MajorType)
  | InvalidIndefiniteString
  | Utf8Error
  | IoError
  | CustomError (msg : String)
  | ExpectedU8
  | ExpectedU16
  | ExpectedU32
  | ExpectedSetTag
  | TrailingData
  | Unreachable
deriving DecidableEq, Repr

/-- The observable state of `Deserializer<R>`: the not-yet-consumed
bytes of the underlying buffered source. -/
structure Deserializer where
  buf : List Byte
deriving DecidableEq, Repr

/-- `Deserializer::get`: peek the byte at `index` past the read
position; fails with `NotEnough(buffered, index)` when fewer than
`index + 1` bytes are buffered.  Non-consuming. -/
def Deserializer.get (d : Deserializer) (index : Nat) : Except Error Byte :=
  match d.buf.get? index with
  | none => Except.error (Error.NotEnough d.buf.length index)
  | some b => Except.ok b

/-- `Deserializer::u8`: the byte at `index` as a `u64`. -/
def Deserializer.u8 (d : Deserializer) (index : Nat) : Except Error Nat :=
  match d.get index with
  | Except.error e => Except.error e
  | Except.ok b => Except.ok b.val

/-- `Deserializer::u16`: two bytes from `index`, combined as
`b1 << 8 | b2`. -/
def Deserializer.u16 (d : Deserializer) (index : Nat) : Except Error Nat :=
  match d.u8 index, d.u8 (index + 1) with
  | Except.error e, _ => Except.error e
  | Except.ok _, Except.error e => Except.error e
  | Except.ok b1, Except.ok b2 => Except.ok (b1 <<< 8 ||| b2)

/-- `Deserializer::u32`: four bytes from `index`, combined as
`b1 << 24 | b2 << 16 | b3 << 8 | b4`. -/
def Deserializer.u32 (d : Deserializer) (index : Nat) : Except Error Nat :=
  match d.u8 index, d.u8 (index + 1), d.u8 (index + 2), d.u8 (index + 3) with
  | Except.error e, _, _, _ => Except.error e
  | Except.ok _, Except.error e, _, _ => Except.error e
  | Except.ok _, Except.ok _, Except.error e, _ => Except.error e
  | Except.ok _, Except.ok _, Except.ok _, Except.error e => Except.error e
  | Except.ok b1, Except.ok b2, Except.ok b3, Except.ok b4 =>
    Except.ok (b1 <<< 24 ||| b2 <<< 16 ||| b3 <<< 8 ||| b4)

/-- `Deserializer::u64`: eight bytes from `index`, combined as
`b1 << 56 | ... | b8`. -/
def Deserializer.u64 (d : Deserializer) (index : Nat) : Except Error Nat :=
  match d.u32 index, d.u32 (index + 4) with
  | Except.error e, _ => Except.error e
  | Except.ok _, Except.error e => Except.error e
  | Except.ok hi, Except.ok lo => Except.ok (hi <<< 32 ||| lo)

/-- `Deserializer::cbor_type`: classify the next value from the top 3
bits of the next unread byte.  Non-consuming. -/
def Deserializer.cbor_type (d : Deserializer) : Except Error MajorType :=
  match d.get 0 with
  | Except.error e => Except.error e
  | Except.ok b => Except.ok (MajorType.fromByte b)

/-- `Deserializer::cbor_expect_type`: classify and compare; fails with
`Expected(wanted, got)` on mismatch.  Non-consuming. -/
def Deserializer.cbor_expect_type (d : Deserializer) (t : MajorType) : Except Error Unit :=
  match d.cbor_type with
  | Except.error e => Except.error e
  | Except.ok t2 => if t2 ≠ t then Except.error (Error.Expected t t2) else Except.ok ()

/-- `Deserializer::cbor_len`: decode the length header from the low 5
bits of byte 0 (selector `0x00`–`0x17`: the value itself, 0 extra
bytes; `0x18`/`0x19`/`0x1a`/`0x1b`: the next 1/2/4/8 bytes big-endian;
`0x1c`–`0x1e`: `UnknownLenType`; `0x1f`: indefinite).  The final arm
models the `unreachable!` of the source.  Non-consuming. -/
def Deserializer.cbor_len (d : Deserializer) : Except Error (Len × Nat) :=
  match d.get 0 with
  | Except.error e => Except.error e
  | Except.ok b0 =>
    let b := b0.val &&& 0x1f
    if b ≤ 0x17 then Except.ok (Len.Len b, 0)
    else if b = 0x18 then (d.u8 1).map (fun v => (Len.Len v, 1))
    else if b = 0x19 then (d.u16 1).map (fun v => (Len.Len v, 2))
    else if b = 0x1a then (d.u32 1).map (fun v => (Len.Len v, 4))
    else if b = 0x1b then (d.u64 1).map (fun v => (Len.Len v, 8))
    else if b ≤ 0x1e then Except.error (Error.UnknownLenType b)
    else if b = 0x1f then Except.ok (Len.Indefinite, 0)
    else Except.error Error.Unreachable

/-- `Deserializer::advance`: consume `len` bytes (infallible for a
buffered in-memory source). -/
def Deserializer.advance (d : Deserializer) (len : Nat) : Deserializer :=
  ⟨d.buf.drop len⟩

/-- `Deserializer::unsigned_integer`: expect `UnsignedInteger`, decode
the header, reject an indefinite header, consume `1 + len_sz` bytes and
return the header value. -/
def Deserializer.unsigned_integer (d : Deserializer) : Except Error Nat × Deserializer :=
  match d.cbor_expect_type MajorType.UnsignedInteger with
  | Except.error e => (Except.error e, d)
  | Except.ok _ =>
    match d.cbor_len with
    | Except.error e => (Except.error e, d)
    | Except.ok (Len.Indefinite, _) =>
      (Except.error (Error.IndefiniteLenNotSupported MajorType.UnsignedInteger), d)
    | Except.ok (Len.Len v, len_sz) => (Except.ok v, d.advance (1 + len_sz))

/-- The value of a `u64` reinterpreted as an `i64` (Rust's `v as i64`,
a two's-complement cast). -/
def i64OfU64 (v : Nat) : Int :=
  if v < 2 ^ 63 then (v : Int) else (v : Int) - 2 ^ 64

/-- Wrapping (release-mode) `i64` arithmetic: reduce into
`[-2 ^ 63, 2 ^ 63)`. -/
def wrapI64 (x : Int) : Int :=
  (x + 2 ^ 63) % 2 ^ 64 - 2 ^ 63

/-- Whether an integer fits in `i64`; an intermediate result outside
this range makes the corresponding Rust arithmetic operation overflow
(a panic under overflow checks). -/
def i64InRangeB (x : Int) : Bool :=
  -(2 ^ 63) ≤ x && x < 2 ^ 63

/-- `Deserializer::negative_integer`: expect `NegativeInteger`, decode
the header, reject an indefinite header, consume the header and return
`-(v as i64) - 1`, the negation and subtraction performed as `i64`
operations (modelled with wrapping). -/
def Deserializer.negative_integer (d : Deserializer) : Except Error Int × Deserializer :=
  match d.cbor_expect_type MajorType.NegativeInteger with
  | Except.error e => (Except.error e, d)
  | Except.ok _ =>
    match d.cbor_len with
    | Except.error e => (Except.error e, d)
    | Except.ok (Len.Indefinite, _) =>
      (Except.error (Error.IndefiniteLenNotSupported MajorType.NegativeInteger), d)
    | Except.ok (Len.Len v, len_sz) =>
      (Except.ok (wrapI64 (wrapI64 (-(i64OfU64 v)) - 1)), d.advance (1 + len_sz))

/-- Whether a byte is a UTF-8 continuation byte (`0x80`–`0xBF`). -/
def contByte (b : Byte) : Bool :=
  0x80 ≤ b.val && b.val ≤ 0xBF

/-- UTF-8 validity of a byte sequence, as enforced by Rust's
`String::from_utf8` (shortest-form encodings only, no surrogates, code
points at most `U+10FFFF`; a truncated multi-byte sequence is
invalid). -/
def utf8Valid : List Byte → Bool
  | [] => true
  | b :: rest =>
    if b.val ≤ 0x7F then utf8Valid rest
    else if b.val < 0xC2 then false
    else if b.val ≤ 0xDF then
      match rest with
      | c1 :: rest2 => contByte c1 && utf8Valid rest2
      | [] => false
    else if b.val ≤ 0xEF then
      match rest with
      | c1 :: c2 :: rest2 =>
        (if b.val = 0xE0 then decide (0xA0 ≤ c1.val) && decide (c1.val ≤ 0xBF)
         else if b.val = 0xED then decide (0x80 ≤ c1.val) && decide (c1.val ≤ 0x9F)
         else contByte c1) && contByte c2 && utf8Valid rest2
      | _ => false
    else if b.val ≤ 0xF4 then
      match rest with
      | c1 :: c2 :: c3 :: rest2 =>
        (if b.val = 0xF0 then decide (0x90 ≤ c1.val) && decide (c1.val ≤ 0xBF)
         else if b.val = 0xF4 then decide (0x80 ≤ c1.val) && decide (c1.val ≤ 0x8F)
         else contByte c1) && contByte c2 && contByte c3 && utf8Valid rest2
      | _ => false
    else false

/-- `Deserializer::special_break`: expect `Special`; if the low 5 bits
of the next byte are the break code `0x1f`, consume 1 byte and return
`true`, otherwise return `false` without consuming.  On a type mismatch
nothing is consumed. -/
def Deserializer.special_break (d : Deserializer) : Except Error Bool × Deserializer :=
  match d.cbor_expect_type MajorType.Special with
  | Except.error e => (Except.error e, d)
  | Except.ok _ =>
    match d.get 0 with
    | Except.error e => (Except.error e, d)
    | Except.ok b =>
      if b.val &&& 0x1f = 0x1f then (Except.ok true, d.advance 1)
      else (Except.ok false, d)

/-- The chunk loop of `Deserializer::bytes` for an indefinite-length
byte string, operating on the bytes following the `0x5f` header: while
the next item is not a break, it must be a definite-length `Bytes`
chunk (an indefinite chunk fails with `InvalidIndefiniteString`); its
payload is appended.  The chunk payload is read with
`take(len).read_to_end`, which reads at most `len` bytes and does not
fail when the stream ends early (the following loop iteration then
fails with `NotEnough`).  When the guard sees a `Special` item that is
not a break, the loop body's `cbor_expect_type(Bytes)` necessarily
fails with `Expected(Bytes, Special)`. -/
def bytesChunks : List Byte → Except Error (List Byte) × List Byte
  | [] => (Except.error (Error.NotEnough 0 0), [])
  | b :: rest =>
    if MajorType.fromByte b = MajorType.Special then
      match Deserializer.special_break ⟨b :: rest⟩ with
      | (Except.ok true, d2) => (Except.ok [], d2.buf)
      | _ => (Except.error (Error.Expected MajorType.Bytes MajorType.Special), b :: rest)
    else if MajorType.fromByte b ≠ MajorType.Bytes then
      (Except.error (Error.Expected MajorType.Bytes (MajorType.fromByte b)), b :: rest)
    else
      match Deserializer.cbor_len ⟨b :: rest⟩ with
      | Except.error e => (Except.error e, b :: rest)
      | Except.ok (Len.Indefinite, _) => (Except.error Error.InvalidIndefiniteString, b :: rest)
      | Except.ok (Len.Len n, sz) =>
        let after := rest.drop sz
        match bytesChunks (after.drop n) with
        | (Except.ok acc, rem) => (Except.ok (after.take n ++ acc), rem)
        | (Except.error e, rem) => (Except.error e, rem)
termination_by l => l.length
decreasing_by
  simp only [List.length_drop, List.length_cons]
  omega

/-- `Deserializer::bytes`: expect `Bytes`, decode and consume the
header; a definite-length payload is read with `read_exact` (which
fails when the stream is shorter than `len`), an indefinite-length
string is assembled by the chunk loop. -/
def Deserializer.bytes (d : Deserializer) : Except Error (List Byte) × Deserializer :=
  match d.cbor_expect_type MajorType.Bytes with
  | Except.error e => (Except.error e, d)
  | Except.ok _ =>
    match d.cbor_len with
    | Except.error e => (Except.error e, d)
    | Except.ok (len, len_sz) =>
      let d1 := d.advance (1 + len_sz)
      match len with
      | Len.Indefinite =>
        match bytesChunks d1.buf with
        | (Except.ok bs, rem) => (Except.ok bs, ⟨rem⟩)
        | (Except.error e, rem) => (Except.error e, ⟨rem⟩)
      | Len.Len n =>
        if n ≤ d1.buf.length then (Except.ok (d1.buf.take n), d1.advance n)
        else (Except.error Error.IoError, d1.advance n)

/-- The chunk loop of `Deserializer::text`: as for `bytes`, except each
chunk is read with `read_exact` (failing when the stream ends early)
and its payload is validated as UTF-8 on its own before being
appended. -/
def textChunks : List Byte → Except Error (List Byte) × List Byte
  | [] => (Except.error (Error.NotEnough 0 0), [])
  | b :: rest =>
    if MajorType.fromByte b = MajorType.Special then
      match Deserializer.special_break ⟨b :: rest⟩ with
      | (Except.ok true, d2) => (Except.ok [], d2.buf)
      | _ => (Except.error (Error.Expected MajorType.Text MajorType.Special), b :: rest)
    else if MajorType.fromByte b ≠ MajorType.Text then
      (Except.error (Error.Expected MajorType.Text (MajorType.fromByte b)), b :: rest)
    else
      match Deserializer.cbor_len ⟨b :: rest⟩ with
      | Except.error e => (Except.error e, b :: rest)
      | Except.ok (Len.Indefinite, _) => (Except.error Error.InvalidIndefiniteString, b :: rest)
      | Except.ok (Len.Len n, sz) =>
        let after := rest.drop sz
        if n ≤ after.length then
          if utf8Valid (after.take n) then
            match textChunks (after.drop n) with
            | (Except.ok acc, rem) => (Except.ok (after.take n ++ acc), rem)
            | (Except.error e, rem) => (Except.error e, rem)
          else (Except.error Error.Utf8Error, after.drop n)
        else (Except.error Error.IoError, after.drop n)
termination_by l => l.length
decreasing_by
  simp only [List.length_drop, List.length_cons]
  omega

/-- `Deserializer::text`: expect `Text`, decode and consume the header;
a definite-length payload is read with `read_exact` and validated as
UTF-8; an indefinite-length string is assembled by the chunk loop with
per-chunk validation. -/
def Deserializer.text (d : Deserializer) : Except Error (List Byte) × Deserializer :=
  match d.cbor_expect_type MajorType.Text with
  | Except.error e => (Except.error e, d)
  | Except.ok _ =>
    match d.cbor_len with
    | Except.error e => (Except.error e, d)
    | Except.ok (len, len_sz) =>
      let d1 := d.advance (1 + len_sz)
      match len with
      | Len.Indefinite =>
        match textChunks d1.buf with
        | (Except.ok ts, rem) => (Except.ok ts, ⟨rem⟩)
        | (Except.error e, rem) => (Except.error e, ⟨rem⟩)
      | Len.Len n =>
        if n ≤ d1.buf.length then
          if utf8Valid (d1.buf.take n) then (Except.ok (d1.buf.take n), d1.advance n)
          else (Except.error Error.Utf8Error, d1.advance n)
        else (Except.error Error.IoError, d1.advance n)

/-- `Deserializer::array`: expect `Array`, decode and consume the
header, return the length (definite or indefinite); elements are not
consumed. -/
def Deserializer.array (d : Deserializer) : Except Error Len × Deserializer :=
  match d.cbor_expect_type MajorType.Array with
  | Except.error e => (Except.error e, d)
  | Except.ok _ =>
    match d.cbor_len with
    | Except.error e => (Except.error e, d)
    | Except.ok (len, sz) => (Except.ok len, d.advance (1 + sz))

/-- `Deserializer::map`: expect `Map`, decode and consume the header,
return the length; entries are not consumed. -/
def Deserializer.map (d : Deserializer) : Except Error Len × Deserializer :=
  match d.cbor_expect_type MajorType.Map with
  | Except.error e => (Except.error e, d)
  | Except.ok _ =>
    match d.cbor_len with
    | Except.error e => (Except.error e, d)
    | Except.ok (len, sz) => (Except.ok len, d.advance (1 + sz))

/-- `Deserializer::tag`: expect `Tag`, require a definite header,
consume it and return the tag number; the tagged value is not
consumed. -/
def Deserializer.tag (d : Deserializer) : Except Error Nat × Deserializer :=
  match d.cbor_expect_type MajorType.Tag with
  | Except.error e => (Except.error e, d)
  | Except.ok _ =>
    match d.cbor_len with
    | Except.error e => (Except.error e, d)
    | Except.ok (Len.Indefinite, _) =>
      (Except.error (Error.IndefiniteLenNotSupported MajorType.Tag), d)
    | Except.ok (Len.Len n, sz) => (Except.ok n, d.advance (1 + sz))

/-- `Deserializer::special`: expect `Special` and decode by the low
5 bits of the next byte; the float subtypes read the following 2/4/8
bytes as a big-endian integer (numerically cast to `f64` in the
source).  The final arm models the `unreachable!` of the source. -/
def Deserializer.special (d : Deserializer) : Except Error Special × Deserializer :=
  match d.cbor_expect_type MajorType.Special with
  | Except.error e => (Except.error e, d)
  | Except.ok _ =>
    match d.get 0 with
    | Except.error e => (Except.error e, d)
    | Except.ok b0 =>
      let b := b0.val &&& 0x1f
      if b ≤ 0x13 then (Except.ok (Special.Unassigned b), d.advance 1)
      else if b = 0x14 then (Except.ok (Special.Bool false), d.advance 1)
      else if b = 0x15 then (Except.ok (Special.Bool true), d.advance 1)
      else if b = 0x16 then (Except.ok Special.Null, d.advance 1)
      else if b = 0x17 then (Except.ok Special.Undefined, d.advance 1)
      else if b = 0x18 then
        match d.u8 1 with
        | Except.error e => (Except.error e, d)
        | Except.ok v => (Except.ok (Special.Unassigned v), d.advance 2)
      else if b = 0x19 then
        match d.u16 1 with
        | Except.error e => (Except.error e, d)
        | Except.ok v => (Except.ok (Special.Float v), d.advance 3)
      else if b = 0x1a then
        match d.u32 1 with
        | Except.error e => (Except.error e, d)
        | Except.ok v => (Except.ok (Special.Float v), d.advance 5)
      else if b = 0x1b then
        match d.u64 1 with
        | Except.error e => (Except.error e, d)
        | Except.ok v => (Except.ok (Special.Float v), d.advance 9)
      else if b ≤ 0x1e then (Except.ok (Special.Unassigned b), d.advance 1)
      else if b = 0x1f then (Except.ok Special.Break, d.advance 1)
      else (Except.error Error.Unreachable, d)

/-- `impl Deserialize for u8`: read an unsigned integer, reject values
above `u8::MAX` with `ExpectedU8` (the integer's encoding has already
been consumed by then). -/
def Deserializer.deserialize_u8 (d : Deserializer) : Except Error Nat × Deserializer :=
  match d.unsigned_integer with
  | (Except.error e, d2) => (Except.error e, d2)
  | (Except.ok n, d2) =>
    if 255 < n then (Except.error Error.ExpectedU8, d2) else (Except.ok n, d2)

/-- `impl Deserialize for u16`: as for `u8`, with bound `u16::MAX`. -/
def Deserializer.deserialize_u16 (d : Deserializer) : Except Error Nat × Deserializer :=
  match d.unsigned_integer with
  | (Except.error e, d2) => (Except.error e, d2)
  | (Except.ok n, d2) =>
    if 65535 < n then (Except.error Error.ExpectedU16, d2) else (Except.ok n, d2)

/-- `impl Deserialize for u32`: as for `u8`, with bound `u32::MAX`. -/
def Deserializer.deserialize_u32 (d : Deserializer) : Except Error Nat × Deserializer :=
  match d.unsigned_integer with
  | (Except.error e, d2) => (Except.error e, d2)
  | (Except.ok n, d2) =>
    if 4294967295 < n then (Except.error Error.ExpectedU32, d2) else (Except.ok n, d2)

/-- The `Debug` rendering of `Len` used in the `Option` decoder's error
message. -/
def lenRepr : Len → String
  | Len.Len n => "Len(" ++ toString n ++ ")"
  | Len.Indefinite => "Indefinite"

/-- `impl Deserialize for Option<T>`: read an array header; length 0
yields `none`, length 1 decodes the single element with the element
decoder `f`, and any other length fails with a descriptive
`CustomError`. -/
def Deserializer.deserialize_option {α : Type} (f : Deserializer → Except Error α × Deserializer)
    (d : Deserializer) : Except Error (Option α) × Deserializer :=
  match d.array with
  | (Except.error e, d2) => (Except.error e, d2)
  | (Except.ok (Len.Len 0), d2) => (Except.ok none, d2)
  | (Except.ok (Len.Len 1), d2) =>
    match f d2 with
    | (Except.ok x, d3) => (Except.ok (some x), d3)
    | (Except.error e, d3) => (Except.error e, d3)
  | (Except.ok len, d2) =>
    (Except.error (Error.CustomError
      ("Invalid Option<T>: received array of " ++ lenRepr len ++ " elements")), d2)

/-- Following the spec's words (§4.2/§6): the big-endian interpretation
of a byte sequence as an unsigned integer. -/
def beValue (bs : List Byte) : Nat :=
  bs.foldl (fun acc b => acc * 256 + b.val) 0

/-- Following the spec's words (§4.3/§6): the chunk grammar of the body
of an indefinite-length string of major type `mt`: a sequence of
definite-length chunks of the same major type, terminated by exactly
one break byte (`0xff`).  Returns the chunk payloads in encounter order
together with the remainder of the stream after the break. -/
def chunkPayloads (mt : MajorType) : List Byte → Option (List (List Byte) × List Byte)
  | [] => none
  | b :: rest =>
    if b.val = 0xff then some ([], rest)
    else if MajorType.fromByte b ≠ mt then none
    else
      match Deserializer.cbor_len ⟨b :: rest⟩ with
      | Except.ok (Len.Len n, sz) =>
        let after := rest.drop sz
        if n ≤ after.length then
          match chunkPayloads mt (after.drop n) with
          | some (ps, rem) => some (after.take n :: ps, rem)
          | none => none
        else none
      | _ => none
termination_by l => l.length
decreasing_by
  simp only [List.length_drop, List.length_cons]
  omega

/-- Following the spec's words (§4.3): the total number of bytes a
`Special` value owns, by its low-5-bit subtype selector: 2/3/5/9 bytes
for the `0x18`/`0x19`/`0x1a`/`0x1b` subtypes, 1 byte otherwise. -/
def specialSize (s : Nat) : Nat :=
  if s = 0x18 then 2
  else if s = 0x19 then 3
  else if s = 0x1a then 5
  else if s = 0x1b then 9
  else 1

/-- A shifted value or-ed with a small value is their sum (the fields
do not overlap). -/
theorem shiftLeft_lor_eq {b : Nat} (a k : Nat) (hb : b < 2 ^ k) :
    a <<< k ||| b = a * 2 ^ k + b := by
  rw [Nat.shiftLeft_eq, Nat.mul_comm]
  exact (Nat.mul_add_lt_is_or hb a).symm

theorem get?_some_lt {l : List Byte} {i : Nat} {b : Byte} (h : l.get? i = some b) :
    i < l.length := by
  by_contra hc
  rw [List.get?_eq_none.mpr (Nat.le_of_not_lt hc)] at h
  cases h

theorem get_ok_iff {d : Deserializer} {i : Nat} {b : Byte} :
    d.get i = Except.ok b ↔ d.buf.get? i = some b := by
  unfold Deserializer.get
  cases h : d.buf.get? i <;> simp

theorem u8_ok {d : Deserializer} {i v : Nat} (h : d.u8 i = Except.ok v) :
    ∃ b, d.buf.get? i = some b ∧ v = b.val := by
  unfold Deserializer.u8 at h
  cases hg : d.get i with
  | error e => rw [hg] at h; cases h
  | ok b =>
    rw [hg] at h
    refine ⟨b, get_ok_iff.mp hg, ?_⟩
    cases h
    rfl

theorem u8_eq {d : Deserializer} {i : Nat} {b : Byte} (h : d.buf.get? i = some b) :
    d.u8 i = Except.ok b.val := by
  unfold Deserializer.u8
  rw [(@get_ok_iff d i b).mpr h]

theorem be2 (b1 b2 : Byte) : b1.val <<< 8 ||| b2.val = beValue [b1, b2] := by
  rw [shiftLeft_lor_eq _ 8 (by omega : b2.val < 2 ^ 8)]
  simp only [beValue, List.foldl]
  omega

theorem be4 (b1 b2 b3 b4 : Byte) :
    b1.val <<< 24 ||| b2.val <<< 16 ||| b3.val <<< 8 ||| b4.val =
      beValue [b1, b2, b3, b4] := by
  rw [Nat.lor_assoc, Nat.lor_assoc,
    shiftLeft_lor_eq _ 8 (by omega : b4.val < 2 ^ 8)]
  rw [shiftLeft_lor_eq _ 16 (by omega : b3.val * 2 ^ 8 + b4.val < 2 ^ 16)]
  rw [shiftLeft_lor_eq _ 24
    (by omega : b2.val * 2 ^ 16 + (b3.val * 2 ^ 8 + b4.val) < 2 ^ 24)]
  simp only [beValue, List.foldl]
  omega

theorem beValue4_lt (b1 b2 b3 b4 : Byte) : beValue [b1, b2, b3, b4] < 2 ^ 32 := by
  simp only [beValue, List.foldl]
  omega

theorem be8 (b1 b2 b3 b4 b5 b6 b7 b8 : Byte) :
    beValue [b1, b2, b3, b4] <<< 32 ||| beValue [b5, b6, b7, b8] =
      beValue [b1, b2, b3, b4, b5, b6, b7, b8] := by
  rw [shiftLeft_lor_eq _ 32 (beValue4_lt b5 b6 b7 b8)]
  simp only [beValue, List.foldl]
  ring

theorem u16_eq {d : Deserializer} {i : Nat} {b1 b2 : Byte}
    (h1 : d.buf.get? i = some b1) (h2 : d.buf.get? (i + 1) = some b2) :
    d.u16 i = Except.ok (beValue [b1, b2]) := by
  unfold Deserializer.u16
  rw [u8_eq h1, u8_eq h2]
  exact congrArg Except.ok (be2 b1 b2)

theorem u32_eq {d : Deserializer} {i : Nat} {b1 b2 b3 b4 : Byte}
    (h1 : d.buf.get? i = some b1) (h2 : d.buf.get? (i + 1) = some b2)
    (h3 : d.buf.get? (i + 2) = some b3) (h4 : d.buf.get? (i + 3) = some b4) :
    d.u32 i = Except.ok (beValue [b1, b2, b3, b4]) := by
  unfold Deserializer.u32
  rw [u8_eq h1, u8_eq h2, u8_eq h3, u8_eq h4]
  exact congrArg Except.ok (be4 b1 b2 b3 b4)

theorem u64_eq {d : Deserializer} {i : Nat} {b1 b2 b3 b4 b5 b6 b7 b8 : Byte}
    (h1 : d.buf.get? i = some b1) (h2 : d.buf.get? (i + 1) = some b2)
    (h3 : d.buf.get? (i + 2) = some b3) (h4 : d.buf.get? (i + 3) = some b4)
    (h5 : d.buf.get? (i + 4) = some b5) (h6 : d.buf.get? (i + 5) = some b6)
    (h7 : d.buf.get? (i + 6) = some b7) (h8 : d.buf.get? (i + 7) = some b8) :
    d.u64 i = Except.ok (beValue [b1, b2, b3, b4, b5, b6, b7, b8]) := by
  have h6' : d.buf.get? (i + 4 + 1) = some b6 := by
    rw [show i + 4 + 1 = i + 5 by omega]; exact h6
  have h7' : d.buf.get? (i + 4 + 2) = some b7 := by
    rw [show i + 4 + 2 = i + 6 by omega]; exact h7
  have h8' : d.buf.get? (i + 4 + 3) = some b8 := by
    rw [show i + 4 + 3 = i + 7 by omega]; exact h8
  unfold Deserializer.u64
  rw [u32_eq h1 h2 h3 h4, u32_eq h5 h6' h7' h8']
  exact congrArg Except.ok (be8 b1 b2 b3 b4 b5 b6 b7 b8)

theorem beValue1 (b : Byte) : beValue [b] = b.val := by
  simp only [beValue, List.foldl]
  omega

theorem beValue2_lt (b1 b2 : Byte) : beValue [b1, b2] < 2 ^ 16 := by
  simp only [beValue, List.foldl]
  omega

theorem beValue8_lt (b1 b2 b3 b4 b5 b6 b7 b8 : Byte) :
    beValue [b1, b2, b3, b4, b5, b6, b7, b8] < 2 ^ 64 := by
  simp only [beValue, List.foldl]
  omega

theorem u16_ok {d : Deserializer} {i v : Nat} (h : d.u16 i = Except.ok v) :
    ∃ b1 b2, d.buf.get? i = some b1 ∧ d.buf.get? (i + 1) = some b2 ∧
      v = beValue [b1, b2] := by
  unfold Deserializer.u16 at h
  cases hu1 : d.u8 i with
  | error e => rw [hu1] at h; cases h
  | ok a1 =>
    cases hu2 : d.u8 (i + 1) with
    | error e => rw [hu1, hu2] at h; cases h
    | ok a2 =>
      rw [hu1, hu2] at h
      obtain ⟨b1, hb1, rfl⟩ := u8_ok hu1
      obtain ⟨b2, hb2, rfl⟩ := u8_ok hu2
      refine ⟨b1, b2, hb1, hb2, ?_⟩
      cases h
      exact be2 b1 b2

theorem u32_ok {d : Deserializer} {i v : Nat} (h : d.u32 i = Except.ok v) :
    ∃ b1 b2 b3 b4, d.buf.get? i = some b1 ∧ d.buf.get? (i + 1) = some b2 ∧
      d.buf.get? (i + 2) = some b3 ∧ d.buf.get? (i + 3) = some b4 ∧
      v = beValue [b1, b2, b3, b4] := by
  unfold Deserializer.u32 at h
  cases hu1 : d.u8 i with
  | error e => rw [hu1] at h; cases h
  | ok a1 =>
    cases hu2 : d.u8 (i + 1) with
    | error e => rw [hu1, hu2] at h; cases h
    | ok a2 =>
      cases hu3 : d.u8 (i + 2) with
      | error e => rw [hu1, hu2, hu3] at h; cases h
      | ok a3 =>
        cases hu4 : d.u8 (i + 3) with
        | error e => rw [hu1, hu2, hu3, hu4] at h; cases h
        | ok a4 =>
          rw [hu1, hu2, hu3, hu4] at h
          obtain ⟨b1, hb1, rfl⟩ := u8_ok hu1
          obtain ⟨b2, hb2, rfl⟩ := u8_ok hu2
          obtain ⟨b3, hb3, rfl⟩ := u8_ok hu3
          obtain ⟨b4, hb4, rfl⟩ := u8_ok hu4
          refine ⟨b1, b2, b3, b4, hb1, hb2, hb3, hb4, ?_⟩
          cases h
          exact be4 b1 b2 b3 b4

theorem u64_ok {d : Deserializer} {i v : Nat} (h : d.u64 i = Except.ok v) :
    ∃ b1 b2 b3 b4 b5 b6 b7 b8,
      d.buf.get? i = some b1 ∧ d.buf.get? (i + 1) = some b2 ∧
      d.buf.get? (i + 2) = some b3 ∧ d.buf.get? (i + 3) = some b4 ∧
      d.buf.get? (i + 4) = some b5 ∧ d.buf.get? (i + 5) = some b6 ∧
      d.buf.get? (i + 6) = some b7 ∧ d.buf.get? (i + 7) = some b8 ∧
      v = beValue [b1, b2, b3, b4, b5, b6, b7, b8] := by
  unfold Deserializer.u64 at h
  cases hu1 : d.u32 i with
  | error e => rw [hu1] at h; cases h
  | ok a1 =>
    cases hu2 : d.u32 (i + 4) with
    | error e => rw [hu1, hu2] at h; cases h
    | ok a2 =>
      rw [hu1, hu2] at h
      obtain ⟨b1, b2, b3, b4, hb1, hb2, hb3, hb4, rfl⟩ := u32_ok hu1
      obtain ⟨b5, b6, b7, b8, hb5, hb6, hb7, hb8, rfl⟩ := u32_ok hu2
      rw [show i + 4 + 1 = i + 5 by omega] at hb6
      rw [show i + 4 + 2 = i + 6 by omega] at hb7
      rw [show i + 4 + 3 = i + 7 by omega] at hb8
      refine ⟨b1, b2, b3, b4, b5, b6, b7, b8, hb1, hb2, hb3, hb4, hb5, hb6, hb7, hb8, ?_⟩
      cases h
      exact be8 b1 b2 b3 b4 b5 b6 b7 b8

theorem cbor_len_imm {d : Deserializer} {b0 : Byte} (h0 : d.buf.get? 0 = some b0)
    (hs : b0.val &&& 0x1f ≤ 0x17) :
    d.cbor_len = Except.ok (Len.Len (b0.val &&& 0x1f), 0) := by
  unfold Deserializer.cbor_len
  rw [get_ok_iff.mpr h0]
  simp only []
  rw [if_pos hs]

theorem cbor_len_u8 {d : Deserializer} {b0 b1 : Byte} (h0 : d.buf.get? 0 = some b0)
    (hs : b0.val &&& 0x1f = 0x18) (h1 : d.buf.get? 1 = some b1) :
    d.cbor_len = Except.ok (Len.Len (beValue [b1]), 1) := by
  unfold Deserializer.cbor_len
  rw [get_ok_iff.mpr h0]
  simp only [hs]
  norm_num
  rw [u8_eq h1, beValue1]
  rfl

theorem cbor_len_u16 {d : Deserializer} {b0 b1 b2 : Byte} (h0 : d.buf.get? 0 = some b0)
    (hs : b0.val &&& 0x1f = 0x19) (h1 : d.buf.get? 1 = some b1)
    (h2 : d.buf.get? 2 = some b2) :
    d.cbor_len = Except.ok (Len.Len (beValue [b1, b2]), 2) := by
  unfold Deserializer.cbor_len
  rw [get_ok_iff.mpr h0]
  simp only [hs]
  norm_num
  rw [u16_eq h1 h2]
  rfl

theorem cbor_len_u32 {d : Deserializer} {b0 b1 b2 b3 b4 : Byte}
    (h0 : d.buf.get? 0 = some b0) (hs : b0.val &&& 0x1f = 0x1a)
    (h1 : d.buf.get? 1 = some b1) (h2 : d.buf.get? 2 = some b2)
    (h3 : d.buf.get? 3 = some b3) (h4 : d.buf.get? 4 = some b4) :
    d.cbor_len = Except.ok (Len.Len (beValue [b1, b2, b3, b4]), 4) := by
  unfold Deserializer.cbor_len
  rw [get_ok_iff.mpr h0]
  simp only [hs]
  norm_num
  rw [u32_eq h1 h2 h3 h4]
  rfl

theorem cbor_len_u64 {d : Deserializer} {b0 b1 b2 b3 b4 b5 b6 b7 b8 : Byte}
    (h0 : d.buf.get? 0 = some b0) (hs : b0.val &&& 0x1f = 0x1b)
    (h1 : d.buf.get? 1 = some b1) (h2 : d.buf.get? 2 = some b2)
    (h3 : d.buf.get? 3 = some b3) (h4 : d.buf.get? 4 = some b4)
    (h5 : d.buf.get? 5 = some b5) (h6 : d.buf.get? 6 = some b6)
    (h7 : d.buf.get? 7 = some b7) (h8 : d.buf.get? 8 = some b8) :
    d.cbor_len = Except.ok (Len.Len (beValue [b1, b2, b3, b4, b5, b6, b7, b8]), 8) := by
  unfold Deserializer.cbor_len
  rw [get_ok_iff.mpr h0]
  simp only [hs]
  norm_num
  rw [u64_eq h1 h2 h3 h4 h5 h6 h7 h8]
  rfl

theorem cbor_len_reserved {d : Deserializer} {b0 : Byte} (h0 : d.buf.get? 0 = some b0)
    (hs1 : 0x1c ≤ b0.val &&& 0x1f) (hs2 : b0.val &&& 0x1f ≤ 0x1e) :
    d.cbor_len = Except.error (Error.UnknownLenType (b0.val &&& 0x1f)) := by
  unfold Deserializer.cbor_len
  rw [get_ok_iff.mpr h0]
  simp only []
  split_ifs <;> first | rfl | omega

theorem cbor_len_indef {d : Deserializer} {b0 : Byte} (h0 : d.buf.get? 0 = some b0)
    (hs : b0.val &&& 0x1f = 0x1f) :
    d.cbor_len = Except.ok (Len.Indefinite, 0) := by
  unfold Deserializer.cbor_len
  rw [get_ok_iff.mpr h0]
  simp only [hs]
  norm_num

theorem cbor_type_eq {d : Deserializer} {b0 : Byte} (h0 : d.buf.get? 0 = some b0) :
    d.cbor_type = Except.ok (MajorType.fromByte b0) := by
  unfold Deserializer.cbor_type
  rw [get_ok_iff.mpr h0]

theorem cbor_expect_type_eq {d : Deserializer} {b0 : Byte} {t : MajorType}
    (h0 : d.buf.get? 0 = some b0) (ht : MajorType.fromByte b0 = t) :
    d.cbor_expect_type t = Except.ok () := by
  unfold Deserializer.cbor_expect_type
  rw [cbor_type_eq h0, ht]
  simp

theorem cbor_expect_type_ne {d : Deserializer} {b0 : Byte} {t : MajorType}
    (h0 : d.buf.get? 0 = some b0) (ht : MajorType.fromByte b0 ≠ t) :
    d.cbor_expect_type t = Except.error (Error.Expected t (MajorType.fromByte b0)) := by
  unfold Deserializer.cbor_expect_type
  rw [cbor_type_eq h0]
  simp [ht]

theorem cbor_expect_type_ok {d : Deserializer} {t : MajorType}
    (h : d.cbor_expect_type t = Except.ok ()) :
    ∃ b0, d.buf.get? 0 = some b0 ∧ MajorType.fromByte b0 = t := by
  cases hg : d.get 0 with
  | error e =>
    have hx : d.cbor_expect_type t = Except.error e := by
      unfold Deserializer.cbor_expect_type Deserializer.cbor_type
      rw [hg]
    rw [hx] at h
    cases h
  | ok b0 =>
    have hb0 : d.buf.get? 0 = some b0 := get_ok_iff.mp hg
    refine ⟨b0, hb0, ?_⟩
    by_contra he
    rw [cbor_expect_type_ne hb0 he] at h
    cases h

theorem cbor_len_ok_inv {d : Deserializer} {len : Len} {sz : Nat}
    (h : d.cbor_len = Except.ok (len, sz)) :
    ∃ b0, d.buf.get? 0 = some b0 ∧ 1 + sz ≤ d.buf.length ∧
      ∀ v, len = Len.Len v → v < 2 ^ 64 := by
  unfold Deserializer.cbor_len at h
  cases hg : d.get 0 with
  | error e => rw [hg] at h; cases h
  | ok b0 =>
    rw [hg] at h
    simp only [] at h
    have hb0 : d.buf.get? 0 = some b0 := get_ok_iff.mp hg
    have hl0 : 0 < d.buf.length := get?_some_lt hb0
    refine ⟨b0, hb0, ?_⟩
    by_cases c1 : b0.val &&& 0x1f ≤ 0x17
    · rw [if_pos c1] at h
      obtain ⟨h1, h2⟩ := Prod.mk.injEq .. ▸ (Except.ok.inj h)
      refine ⟨by omega, ?_⟩
      intro v hv
      rw [← h1] at hv
      cases hv
      omega
    · rw [if_neg c1] at h
      by_cases c2 : b0.val &&& 0x1f = 0x18
      · rw [if_pos c2] at h
        cases hu : d.u8 1 with
        | error e => rw [hu] at h; simp [Except.map] at h
        | ok a =>
          rw [hu] at h
          simp only [Except.map, Except.ok.injEq, Prod.mk.injEq] at h
          obtain ⟨h1, h2⟩ := h
          obtain ⟨b1, hb1, rfl⟩ := u8_ok hu
          refine ⟨by have := get?_some_lt hb1; omega, ?_⟩
          intro v hv
          rw [← h1] at hv
          cases hv
          omega
      · rw [if_neg c2] at h
        by_cases c3 : b0.val &&& 0x1f = 0x19
        · rw [if_pos c3] at h
          cases hu : d.u16 1 with
          | error e => rw [hu] at h; simp [Except.map] at h
          | ok a =>
            rw [hu] at h
            simp only [Except.map, Except.ok.injEq, Prod.mk.injEq] at h
            obtain ⟨h1, h2⟩ := h
            obtain ⟨b1, b2, hb1, hb2, rfl⟩ := u16_ok hu
            refine ⟨by have := get?_some_lt hb2; omega, ?_⟩
            intro v hv
            rw [← h1] at hv
            cases hv
            have := beValue2_lt b1 b2
            omega
        · rw [if_neg c3] at h
          by_cases c4 : b0.val &&& 0x1f = 0x1a
          · rw [if_pos c4] at h
            cases hu : d.u32 1 with
            | error e => rw [hu] at h; simp [Except.map] at h
            | ok a =>
              rw [hu] at h
              simp only [Except.map, Except.ok.injEq, Prod.mk.injEq] at h
              obtain ⟨h1, h2⟩ := h
              obtain ⟨b1, b2, b3, b4, hb1, hb2, hb3, hb4, rfl⟩ := u32_ok hu
              refine ⟨by have := get?_some_lt hb4; omega, ?_⟩
              intro v hv
              rw [← h1] at hv
              cases hv
              have := beValue4_lt b1 b2 b3 b4
              omega
          · rw [if_neg c4] at h
            by_cases c5 : b0.val &&& 0x1f = 0x1b
            · rw [if_pos c5] at h
              cases hu : d.u64 1 with
              | error e => rw [hu] at h; simp [Except.map] at h
              | ok a =>
                rw [hu] at h
                simp only [Except.map, Except.ok.injEq, Prod.mk.injEq] at h
                obtain ⟨h1, h2⟩ := h
                obtain ⟨b1, b2, b3, b4, b5, b6, b7, b8,
                  hb1, hb2, hb3, hb4, hb5, hb6, hb7, hb8, rfl⟩ := u64_ok hu
                refine ⟨by have := get?_some_lt hb8; omega, ?_⟩
                intro v hv
                rw [← h1] at hv
                cases hv
                exact beValue8_lt b1 b2 b3 b4 b5 b6 b7 b8
            · rw [if_neg c5] at h
              by_cases c6 : b0.val &&& 0x1f ≤ 0x1e
              · rw [if_pos c6] at h
                cases h
              · rw [if_neg c6] at h
                by_cases c7 : b0.val &&& 0x1f = 0x1f
                · rw [if_pos c7] at h
                  obtain ⟨h1, h2⟩ := Prod.mk.injEq .. ▸ (Except.ok.inj h)
                  refine ⟨by omega, ?_⟩
                  intro v hv
                  rw [← h1] at hv
                  cases hv
                · rw [if_neg c7] at h
                  cases h

theorem unsigned_integer_ok {d : Deserializer} {v : Nat} {d2 : Deserializer}
    (h : d.unsigned_integer = (Except.ok v, d2)) :
    ∃ sz, d.cbor_len = Except.ok (Len.Len v, sz) ∧ d2 = d.advance (1 + sz) ∧
      1 + sz ≤ d.buf.length ∧ v < 2 ^ 64 := by
  unfold Deserializer.unsigned_integer at h
  cases he : d.cbor_expect_type MajorType.UnsignedInteger with
  | error e => rw [he] at h; simp at h
  | ok u =>
    cases u
    rw [he] at h
    cases hl : d.cbor_len with
    | error e => rw [hl] at h; simp at h
    | ok p =>
      obtain ⟨len, sz⟩ := p
      rw [hl] at h
      cases len with
      | Indefinite => simp at h
      | Len w =>
        simp only [Prod.mk.injEq, Except.ok.injEq] at h
        obtain ⟨rfl, rfl⟩ := h
        obtain ⟨b0, hb0, hle, hlt⟩ := cbor_len_ok_inv hl
        exact ⟨sz, rfl, rfl, hle, hlt _ rfl⟩

theorem negative_integer_ok {d : Deserializer} {i : Int} {d2 : Deserializer}
    (h : d.negative_integer = (Except.ok i, d2)) :
    ∃ v sz, d.cbor_len = Except.ok (Len.Len v, sz) ∧ d2 = d.advance (1 + sz) ∧
      1 + sz ≤ d.buf.length ∧ v < 2 ^ 64 := by
  unfold Deserializer.negative_integer at h
  cases he : d.cbor_expect_type MajorType.NegativeInteger with
  | error e => rw [he] at h; simp at h
  | ok u =>
    cases u
    rw [he] at h
    cases hl : d.cbor_len with
    | error e => rw [hl] at h; simp at h
    | ok p =>
      obtain ⟨len, sz⟩ := p
      rw [hl] at h
      cases len with
      | Indefinite => simp at h
      | Len w =>
        simp only [Prod.mk.injEq, Except.ok.injEq] at h
        obtain ⟨rfl, rfl⟩ := h
        obtain ⟨b0, hb0, hle, hlt⟩ := cbor_len_ok_inv hl
        exact ⟨w, sz, rfl, rfl, hle, hlt _ rfl⟩

theorem array_ok {d : Deserializer} {len : Len} {d2 : Deserializer}
    (h : d.array = (Except.ok len, d2)) :
    ∃ sz, d.cbor_len = Except.ok (len, sz) ∧ d2 = d.advance (1 + sz) ∧
      1 + sz ≤ d.buf.length := by
  unfold Deserializer.array at h
  cases he : d.cbor_expect_type MajorType.Array with
  | error e => rw [he] at h; simp at h
  | ok u =>
    cases u
    rw [he] at h
    cases hl : d.cbor_len with
    | error e => rw [hl] at h; simp at h
    | ok p =>
      obtain ⟨len2, sz⟩ := p
      rw [hl] at h
      simp only [Prod.mk.injEq, Except.ok.injEq] at h
      obtain ⟨rfl, rfl⟩ := h
      obtain ⟨b0, hb0, hle, _⟩ := cbor_len_ok_inv hl
      exact ⟨sz, rfl, rfl, hle⟩

theorem map_ok {d : Deserializer} {len : Len} {d2 : Deserializer}
    (h : d.map = (Except.ok len, d2)) :
    ∃ sz, d.cbor_len = Except.ok (len, sz) ∧ d2 = d.advance (1 + sz) ∧
      1 + sz ≤ d.buf.length := by
  unfold Deserializer.map at h
  cases he : d.cbor_expect_type MajorType.Map with
  | error e => rw [he] at h; simp at h
  | ok u =>
    cases u
    rw [he] at h
    cases hl : d.cbor_len with
    | error e => rw [hl] at h; simp at h
    | ok p =>
      obtain ⟨len2, sz⟩ := p
      rw [hl] at h
      simp only [Prod.mk.injEq, Except.ok.injEq] at h
      obtain ⟨rfl, rfl⟩ := h
      obtain ⟨b0, hb0, hle, _⟩ := cbor_len_ok_inv hl
      exact ⟨sz, rfl, rfl, hle⟩

theorem tag_ok {d : Deserializer} {v : Nat} {d2 : Deserializer}
    (h : d.tag = (Except.ok v, d2)) :
    ∃ sz, d.cbor_len = Except.ok (Len.Len v, sz) ∧ d2 = d.advance (1 + sz) ∧
      1 + sz ≤ d.buf.length := by
  unfold Deserializer.tag at h
  cases he : d.cbor_expect_type MajorType.Tag with
  | error e => rw [he] at h; simp at h
  | ok u =>
    cases u
    rw [he] at h
    cases hl : d.cbor_len with
    | error e => rw [hl] at h; simp at h
    | ok p =>
      obtain ⟨len, sz⟩ := p
      rw [hl] at h
      cases len with
      | Indefinite => simp at h
      | Len w =>
        simp only [Prod.mk.injEq, Except.ok.injEq] at h
        obtain ⟨rfl, rfl⟩ := h
        obtain ⟨b0, hb0, hle, _⟩ := cbor_len_ok_inv hl
        exact ⟨sz, rfl, rfl, hle⟩

theorem special_break_true {d : Deserializer} {b0 : Byte} (h0 : d.buf.get? 0 = some b0)
    (ht : MajorType.fromByte b0 = MajorType.Special) (hm : b0.val &&& 0x1f = 0x1f) :
    d.special_break = (Except.ok true, d.advance 1) := by
  unfold Deserializer.special_break
  rw [cbor_expect_type_eq h0 ht, get_ok_iff.mpr h0]
  simp only [hm, if_true, if_pos]

theorem special_break_false {d : Deserializer} {b0 : Byte} (h0 : d.buf.get? 0 = some b0)
    (ht : MajorType.fromByte b0 = MajorType.Special) (hm : ¬(b0.val &&& 0x1f = 0x1f)) :
    d.special_break = (Except.ok false, d) := by
  unfold Deserializer.special_break
  rw [cbor_expect_type_eq h0 ht, get_ok_iff.mpr h0]
  simp only [hm, if_false, if_neg hm]

theorem special_break_mismatch {d : Deserializer} {b0 : Byte} (h0 : d.buf.get? 0 = some b0)
    (ht : MajorType.fromByte b0 ≠ MajorType.Special) :
    d.special_break =
      (Except.error (Error.Expected MajorType.Special (MajorType.fromByte b0)), d) := by
  unfold Deserializer.special_break
  rw [cbor_expect_type_ne h0 ht]

theorem special_eq_unassigned_low {d : Deserializer} {b0 : Byte}
    (h0 : d.buf.get? 0 = some b0) (ht : MajorType.fromByte b0 = MajorType.Special)
    (hm : b0.val &&& 0x1f ≤ 0x13) :
    d.special = (Except.ok (Special.Unassigned (b0.val &&& 0x1f)), d.advance 1) := by
  unfold Deserializer.special
  rw [cbor_expect_type_eq h0 ht, get_ok_iff.mpr h0]
  simp only []
  rw [if_pos hm]

theorem special_eq_bool_false {d : Deserializer} {b0 : Byte}
    (h0 : d.buf.get? 0 = some b0) (ht : MajorType.fromByte b0 = MajorType.Special)
    (hm : b0.val &&& 0x1f = 0x14) :
    d.special = (Except.ok (Special.Bool false), d.advance 1) := by
  unfold Deserializer.special
  rw [cbor_expect_type_eq h0 ht, get_ok_iff.mpr h0]
  simp only [hm]
  norm_num

theorem special_eq_bool_true {d : Deserializer} {b0 : Byte}
    (h0 : d.buf.get? 0 = some b0) (ht : MajorType.fromByte b0 = MajorType.Special)
    (hm : b0.val &&& 0x1f = 0x15) :
    d.special = (Except.ok (Special.Bool true), d.advance 1) := by
  unfold Deserializer.special
  rw [cbor_expect_type_eq h0 ht, get_ok_iff.mpr h0]
  simp only [hm]
  norm_num

theorem special_eq_null {d : Deserializer} {b0 : Byte}
    (h0 : d.buf.get? 0 = some b0) (ht : MajorType.fromByte b0 = MajorType.Special)
    (hm : b0.val &&& 0x1f = 0x16) :
    d.special = (Except.ok Special.Null, d.advance 1) := by
  unfold Deserializer.special
  rw [cbor_expect_type_eq h0 ht, get_ok_iff.mpr h0]
  simp only [hm]
  norm_num

theorem special_eq_undefined {d : Deserializer} {b0 : Byte}
    (h0 : d.buf.get? 0 = some b0) (ht : MajorType.fromByte b0 = MajorType.Special)
    (hm : b0.val &&& 0x1f = 0x17) :
    d.special = (Except.ok Special.Undefined, d.advance 1) := by
  unfold Deserializer.special
  rw [cbor_expect_type_eq h0 ht, get_ok_iff.mpr h0]
  simp only [hm]
  norm_num

theorem special_eq_unassigned_ext {d : Deserializer} {b0 b1 : Byte}
    (h0 : d.buf.get? 0 = some b0) (ht : MajorType.fromByte b0 = MajorType.Special)
    (hm : b0.val &&& 0x1f = 0x18) (h1 : d.buf.get? 1 = some b1) :
    d.special = (Except.ok (Special.Unassigned b1.val), d.advance 2) := by
  unfold Deserializer.special
  rw [cbor_expect_type_eq h0 ht, get_ok_iff.mpr h0]
  simp only [hm]
  norm_num
  rw [u8_eq h1]

theorem special_eq_float16 {d : Deserializer} {b0 b1 b2 : Byte}
    (h0 : d.buf.get? 0 = some b0) (ht : MajorType.fromByte b0 = MajorType.Special)
    (hm : b0.val &&& 0x1f = 0x19) (h1 : d.buf.get? 1 = some b1)
    (h2 : d.buf.get? 2 = some b2) :
    d.special = (Except.ok (Special.Float (beValue [b1, b2])), d.advance 3) := by
  unfold Deserializer.special
  rw [cbor_expect_type_eq h0 ht, get_ok_iff.mpr h0]
  simp only [hm]
  norm_num
  rw [u16_eq h1 h2]

theorem special_eq_float32 {d : Deserializer} {b0 b1 b2 b3 b4 : Byte}
    (h0 : d.buf.get? 0 = some b0) (ht : MajorType.fromByte b0 = MajorType.Special)
    (hm : b0.val &&& 0x1f = 0x1a) (h1 : d.buf.get? 1 = some b1)
    (h2 : d.buf.get? 2 = some b2) (h3 : d.buf.get? 3 = some b3)
    (h4 : d.buf.get? 4 = some b4) :
    d.special = (Except.ok (Special.Float (beValue [b1, b2, b3, b4])), d.advance 5) := by
  unfold Deserializer.special
  rw [cbor_expect_type_eq h0 ht, get_ok_iff.mpr h0]
  simp only [hm]
  norm_num
  rw [u32_eq h1 h2 h3 h4]

theorem special_eq_float64 {d : Deserializer} {b0 b1 b2 b3 b4 b5 b6 b7 b8 : Byte}
    (h0 : d.buf.get? 0 = some b0) (ht : MajorType.fromByte b0 = MajorType.Special)
    (hm : b0.val &&& 0x1f = 0x1b) (h1 : d.buf.get? 1 = some b1)
    (h2 : d.buf.get? 2 = some b2) (h3 : d.buf.get? 3 = some b3)
    (h4 : d.buf.get? 4 = some b4) (h5 : d.buf.get? 5 = some b5)
    (h6 : d.buf.get? 6 = some b6) (h7 : d.buf.get? 7 = some b7)
    (h8 : d.buf.get? 8 = some b8) :
    d.special =
      (Except.ok (Special.Float (beValue [b1, b2, b3, b4, b5, b6, b7, b8])),
        d.advance 9) := by
  unfold Deserializer.special
  rw [cbor_expect_type_eq h0 ht, get_ok_iff.mpr h0]
  simp only [hm]
  norm_num
  rw [u64_eq h1 h2 h3 h4 h5 h6 h7 h8]

theorem special_eq_unassigned_reserved {d : Deserializer} {b0 : Byte}
    (h0 : d.buf.get? 0 = some b0) (ht : MajorType.fromByte b0 = MajorType.Special)
    (hm1 : 0x1c ≤ b0.val &&& 0x1f) (hm2 : b0.val &&& 0x1f ≤ 0x1e) :
    d.special = (Except.ok (Special.Unassigned (b0.val &&& 0x1f)), d.advance 1) := by
  unfold Deserializer.special
  rw [cbor_expect_type_eq h0 ht, get_ok_iff.mpr h0]
  simp only []
  split_ifs <;> first | rfl | omega

theorem special_eq_break {d : Deserializer} {b0 : Byte}
    (h0 : d.buf.get? 0 = some b0) (ht : MajorType.fromByte b0 = MajorType.Special)
    (hm : b0.val &&& 0x1f = 0x1f) :
    d.special = (Except.ok Special.Break, d.advance 1) := by
  unfold Deserializer.special
  rw [cbor_expect_type_eq h0 ht, get_ok_iff.mpr h0]
  simp only [hm]
  norm_num

theorem specialSize_one {m : Nat} (hm : ¬(m = 0x18) ∧ ¬(m = 0x19) ∧ ¬(m = 0x1a) ∧ ¬(m = 0x1b)) :
    specialSize m = 1 := by
  unfold specialSize
  rw [if_neg hm.1, if_neg hm.2.1, if_neg hm.2.2.1, if_neg hm.2.2.2]

theorem special_ok {d : Deserializer} {s : Special} {d2 : Deserializer}
    (h : d.special = (Except.ok s, d2)) :
    ∃ b0, d.buf.get? 0 = some b0 ∧ MajorType.fromByte b0 = MajorType.Special ∧
      d2 = d.advance (specialSize (b0.val &&& 0x1f)) ∧
      specialSize (b0.val &&& 0x1f) ≤ d.buf.length := by
  unfold Deserializer.special at h
  cases he : d.cbor_expect_type MajorType.Special with
  | error e => rw [he] at h; simp at h
  | ok u =>
    cases u
    rw [he] at h
    obtain ⟨b0, hb0, ht⟩ := cbor_expect_type_ok he
    cases hg : d.get 0 with
    | error e => rw [hg] at h; simp at h
    | ok b1 =>
      have hbb : b1 = b0 := by
        have hx := get_ok_iff.mp hg
        rw [hx] at hb0
        exact Option.some.inj hb0
      subst hbb
      rw [hg] at h
      simp only [] at h
      have hl0 : 0 < d.buf.length := get?_some_lt (get_ok_iff.mp hg)
      refine ⟨b1, get_ok_iff.mp hg, ht, ?_⟩
      by_cases c1 : b1.val &&& 0x1f ≤ 0x13
      · rw [if_pos c1] at h
        simp only [Prod.mk.injEq, Except.ok.injEq] at h
        rw [specialSize_one ⟨by omega, by omega, by omega, by omega⟩]
        exact ⟨h.2.symm, by omega⟩
      · rw [if_neg c1] at h
        by_cases c2 : b1.val &&& 0x1f = 0x14
        · rw [if_pos c2] at h
          simp only [Prod.mk.injEq, Except.ok.injEq] at h
          rw [specialSize_one ⟨by omega, by omega, by omega, by omega⟩]
          exact ⟨h.2.symm, by omega⟩
        · rw [if_neg c2] at h
          by_cases c3 : b1.val &&& 0x1f = 0x15
          · rw [if_pos c3] at h
            simp only [Prod.mk.injEq, Except.ok.injEq] at h
            rw [specialSize_one ⟨by omega, by omega, by omega, by omega⟩]
            exact ⟨h.2.symm, by omega⟩
          · rw [if_neg c3] at h
            by_cases c4 : b1.val &&& 0x1f = 0x16
            · rw [if_pos c4] at h
              simp only [Prod.mk.injEq, Except.ok.injEq] at h
              rw [specialSize_one ⟨by omega, by omega, by omega, by omega⟩]
              exact ⟨h.2.symm, by omega⟩
            · rw [if_neg c4] at h
              by_cases c5 : b1.val &&& 0x1f = 0x17
              · rw [if_pos c5] at h
                simp only [Prod.mk.injEq, Except.ok.injEq] at h
                rw [specialSize_one ⟨by omega, by omega, by omega, by omega⟩]
                exact ⟨h.2.symm, by omega⟩
              · rw [if_neg c5] at h
                by_cases c6 : b1.val &&& 0x1f = 0x18
                · rw [if_pos c6] at h
                  cases hu : d.u8 1 with
                  | error e => rw [hu] at h; simp at h
                  | ok a =>
                    rw [hu] at h
                    simp only [Prod.mk.injEq, Except.ok.injEq] at h
                    obtain ⟨bx, hbx, rfl⟩ := u8_ok hu
                    have hx := get?_some_lt hbx
                    rw [show specialSize (b1.val &&& 0x1f) = 2 by
                      unfold specialSize; rw [if_pos c6]]
                    exact ⟨h.2.symm, by omega⟩
                · rw [if_neg c6] at h
                  by_cases c7 : b1.val &&& 0x1f = 0x19
                  · rw [if_pos c7] at h
                    cases hu : d.u16 1 with
                    | error e => rw [hu] at h; simp at h
                    | ok a =>
                      rw [hu] at h
                      simp only [Prod.mk.injEq, Except.ok.injEq] at h
                      obtain ⟨bx, by2, hbx, hby, rfl⟩ := u16_ok hu
                      have hx := get?_some_lt hby
                      rw [show specialSize (b1.val &&& 0x1f) = 3 by
                        unfold specialSize; rw [if_neg c6, if_pos c7]]
                      exact ⟨h.2.symm, by omega⟩
                  · rw [if_neg c7] at h
                    by_cases c8 : b1.val &&& 0x1f = 0x1a
                    · rw [if_pos c8] at h
                      cases hu : d.u32 1 with
                      | error e => rw [hu] at h; simp at h
                      | ok a =>
                        rw [hu] at h
                        simp only [Prod.mk.injEq, Except.ok.injEq] at h
                        obtain ⟨x1, x2, x3, x4, hx1, hx2, hx3, hx4, rfl⟩ := u32_ok hu
                        have hx := get?_some_lt hx4
                        rw [show specialSize (b1.val &&& 0x1f) = 5 by
                          unfold specialSize; rw [if_neg c6, if_neg c7, if_pos c8]]
                        exact ⟨h.2.symm, by omega⟩
                    · rw [if_neg c8] at h
                      by_cases c9 : b1.val &&& 0x1f = 0x1b
                      · rw [if_pos c9] at h
                        cases hu : d.u64 1 with
                        | error e => rw [hu] at h; simp at h
                        | ok a =>
                          rw [hu] at h
                          simp only [Prod.mk.injEq, Except.ok.injEq] at h
                          obtain ⟨x1, x2, x3, x4, x5, x6, x7, x8,
                            hx1, hx2, hx3, hx4, hx5, hx6, hx7, hx8, rfl⟩ := u64_ok hu
                          have hx := get?_some_lt hx8
                          rw [show specialSize (b1.val &&& 0x1f) = 9 by
                            unfold specialSize; rw [if_neg c6, if_neg c7, if_neg c8, if_pos c9]]
                          exact ⟨h.2.symm, by omega⟩
                      · rw [if_neg c9] at h
                        by_cases c10 : b1.val &&& 0x1f ≤ 0x1e
                        · rw [if_pos c10] at h
                          simp only [Prod.mk.injEq, Except.ok.injEq] at h
                          rw [specialSize_one ⟨c6, c7, c8, c9⟩]
                          exact ⟨h.2.symm, by omega⟩
                        · rw [if_neg c10] at h
                          by_cases c11 : b1.val &&& 0x1f = 0x1f
                          · rw [if_pos c11] at h
                            simp only [Prod.mk.injEq, Except.ok.injEq] at h
                            rw [specialSize_one ⟨c6, c7, c8, c9⟩]
                            exact ⟨h.2.symm, by omega⟩
                          · rw [if_neg c11] at h
                            simp at h

set_option maxRecDepth 4000 in
theorem byte_special_break_255 :
    ∀ b : Byte, MajorType.fromByte b = MajorType.Special → b.val &&& 0x1f = 0x1f →
      b.val = 255 := by
  decide

set_option maxRecDepth 4000 in
theorem byte_bytes_ne_255 :
    ∀ b : Byte, MajorType.fromByte b = MajorType.Bytes → ¬(b.val = 255) := by
  decide

set_option maxRecDepth 4000 in
theorem byte_text_ne_255 :
    ∀ b : Byte, MajorType.fromByte b = MajorType.Text → ¬(b.val = 255) := by
  decide

theorem bytesChunks_nil : bytesChunks [] = (Except.error (Error.NotEnough 0 0), []) := by
  rw [bytesChunks]

theorem bytesChunks_spec (l : List Byte) : ∀ bs rem, bytesChunks l = (Except.ok bs, rem) →
    ∃ ps, chunkPayloads MajorType.Bytes l = some (ps, rem) ∧ bs = ps.flatten := by
  induction l using bytesChunks.induct with
  | case1 =>
    intro bs rem h
    rw [bytesChunks_nil] at h
    simp at h
  | case2 b rest h1 d2 hsb =>
    intro bs rem h
    rw [bytesChunks, if_pos h1, hsb] at h
    simp only [Prod.mk.injEq, Except.ok.injEq] at h
    obtain ⟨rfl, rfl⟩ := h
    have hb : (⟨b :: rest⟩ : Deserializer).buf.get? 0 = some b := rfl
    by_cases hm : b.val &&& 0x1f = 0x1f
    · have h255 := byte_special_break_255 b h1 hm
      have hd2 : d2 = Deserializer.advance ⟨b :: rest⟩ 1 := by
        have hx := special_break_true hb h1 hm
        rw [hx] at hsb
        simp only [Prod.mk.injEq, true_and] at hsb
        exact hsb.symm
      refine ⟨[], ?_, rfl⟩
      rw [chunkPayloads, if_pos h255]
      have : Deserializer.advance ⟨b :: rest⟩ 1 = ⟨rest⟩ := rfl
      rw [hd2, this]
    · have := special_break_false hb h1 hm
      rw [this] at hsb
      simp at hsb
  | case3 b rest h1 hno =>
    intro bs rem h
    have hb : (⟨b :: rest⟩ : Deserializer).buf.get? 0 = some b := rfl
    by_cases hm : b.val &&& 0x1f = 0x1f
    · exact absurd (special_break_true hb h1 hm) (hno _)
    · rw [bytesChunks, if_pos h1, special_break_false hb h1 hm] at h
      simp at h
  | case4 b rest h1 h2 =>
    intro bs rem h
    rw [bytesChunks, if_neg h1, if_pos h2] at h
    simp at h
  | case5 b rest h1 h2 e hlen =>
    intro bs rem h
    rw [bytesChunks, if_neg h1, if_neg h2, hlen] at h
    simp at h
  | case6 b rest h1 h2 sz hlen =>
    intro bs rem h
    rw [bytesChunks, if_neg h1, if_neg h2, hlen] at h
    simp at h
  | case7 b rest h1 h2 v len_sz hlen after acc rem0 hrec ih =>
    intro bs rem h
    have hrec2 : bytesChunks (List.drop v (List.drop len_sz rest)) = (Except.ok acc, rem0) :=
      hrec
    rw [bytesChunks, if_neg h1, if_neg h2, hlen] at h
    simp only [] at h
    rw [hrec2] at h
    simp only [Prod.mk.injEq, Except.ok.injEq] at h
    obtain ⟨rfl, rfl⟩ := h
    obtain ⟨ps, hcp, rfl⟩ := ih acc rem0 hrec
    have hcp2 : chunkPayloads MajorType.Bytes (List.drop v (List.drop len_sz rest)) =
        some (ps, rem0) := hcp
    have hb2 : MajorType.fromByte b = MajorType.Bytes := by
      by_contra hx
      exact h2 hx
    have hne : List.drop v (List.drop len_sz rest) ≠ [] := by
      intro hx
      rw [hx, bytesChunks_nil] at hrec2
      simp at hrec2
    have hvle : v ≤ (List.drop len_sz rest).length := by
      by_contra hx
      exact hne (List.drop_eq_nil_of_le (by omega))
    refine ⟨List.take v (List.drop len_sz rest) :: ps, ?_, by simp⟩
    rw [chunkPayloads, if_neg (byte_bytes_ne_255 b hb2), if_neg h2, hlen]
    simp only []
    rw [if_pos hvle, hcp2]
  | case8 b rest h1 h2 v len_sz hlen after e rem0 hrec ih =>
    intro bs rem h
    have hrec2 : bytesChunks (List.drop v (List.drop len_sz rest)) = (Except.error e, rem0) :=
      hrec
    rw [bytesChunks, if_neg h1, if_neg h2, hlen] at h
    simp only [] at h
    rw [hrec2] at h
    simp at h

theorem textChunks_nil : textChunks [] = (Except.error (Error.NotEnough 0 0), []) := by
  rw [textChunks]

theorem textChunks_spec (l : List Byte) : ∀ ts rem, textChunks l = (Except.ok ts, rem) →
    ∃ ps, chunkPayloads MajorType.Text l = some (ps, rem) ∧ ts = ps.flatten ∧
      ∀ p ∈ ps, utf8Valid p = true := by
  induction l using textChunks.induct with
  | case1 =>
    intro ts rem h
    rw [textChunks_nil] at h
    simp at h
  | case2 b rest h1 d2 hsb =>
    intro ts rem h
    rw [textChunks, if_pos h1, hsb] at h
    simp only [Prod.mk.injEq, Except.ok.injEq] at h
    obtain ⟨rfl, rfl⟩ := h
    have hb : (⟨b :: rest⟩ : Deserializer).buf.get? 0 = some b := rfl
    by_cases hm : b.val &&& 0x1f = 0x1f
    · have h255 := byte_special_break_255 b h1 hm
      have hd2 : d2 = Deserializer.advance ⟨b :: rest⟩ 1 := by
        have hx := special_break_true hb h1 hm
        rw [hx] at hsb
        simp only [Prod.mk.injEq, true_and] at hsb
        exact hsb.symm
      refine ⟨[], ?_, rfl, by simp⟩
      rw [chunkPayloads, if_pos h255]
      have : Deserializer.advance ⟨b :: rest⟩ 1 = ⟨rest⟩ := rfl
      rw [hd2, this]
    · have := special_break_false hb h1 hm
      rw [this] at hsb
      simp at hsb
  | case3 b rest h1 hno =>
    intro ts rem h
    have hb : (⟨b :: rest⟩ : Deserializer).buf.get? 0 = some b := rfl
    by_cases hm : b.val &&& 0x1f = 0x1f
    · exact absurd (special_break_true hb h1 hm) (hno _)
    · rw [textChunks, if_pos h1, special_break_false hb h1 hm] at h
      simp at h
  | case4 b rest h1 h2 =>
    intro ts rem h
    rw [textChunks, if_neg h1, if_pos h2] at h
    simp at h
  | case5 b rest h1 h2 e hlen =>
    intro ts rem h
    rw [textChunks, if_neg h1, if_neg h2, hlen] at h
    simp at h
  | case6 b rest h1 h2 sz hlen =>
    intro ts rem h
    rw [textChunks, if_neg h1, if_neg h2, hlen] at h
    simp at h
  | case7 b rest h1 h2 v len_sz hlen after hle hutf acc rem0 hrec ih =>
    intro ts rem h
    have hle2 : v ≤ (List.drop len_sz rest).length := hle
    have hutf2 : utf8Valid (List.take v (List.drop len_sz rest)) = true := hutf
    have hrec2 : textChunks (List.drop v (List.drop len_sz rest)) = (Except.ok acc, rem0) :=
      hrec
    rw [textChunks, if_neg h1, if_neg h2, hlen] at h
    simp only [] at h
    rw [if_pos hle2, if_pos hutf2, hrec2] at h
    simp only [Prod.mk.injEq, Except.ok.injEq] at h
    obtain ⟨rfl, rfl⟩ := h
    obtain ⟨ps, hcp, rfl, hall⟩ := ih acc rem0 hrec
    have hcp2 : chunkPayloads MajorType.Text (List.drop v (List.drop len_sz rest)) =
        some (ps, rem0) := hcp
    have hb2 : MajorType.fromByte b = MajorType.Text := by
      by_contra hx
      exact h2 hx
    refine ⟨List.take v (List.drop len_sz rest) :: ps, ?_, by simp, ?_⟩
    · rw [chunkPayloads, if_neg (byte_text_ne_255 b hb2), if_neg h2, hlen]
      simp only []
      rw [if_pos hle2, hcp2]
    · intro p hp
      cases hp with
      | head => exact hutf2
      | tail _ hp2 => exact hall p hp2
  | case8 b rest h1 h2 v len_sz hlen after hle hutf e rem0 hrec ih =>
    intro ts rem h
    have hle2 : v ≤ (List.drop len_sz rest).length := hle
    have hutf2 : utf8Valid (List.take v (List.drop len_sz rest)) = true := hutf
    have hrec2 : textChunks (List.drop v (List.drop len_sz rest)) = (Except.error e, rem0) :=
      hrec
    rw [textChunks, if_neg h1, if_neg h2, hlen] at h
    simp only [] at h
    rw [if_pos hle2, if_pos hutf2, hrec2] at h
    simp at h
  | case9 b rest h1 h2 v len_sz hlen after hle hutf =>
    intro ts rem h
    have hle2 : v ≤ (List.drop len_sz rest).length := hle
    have hutf2 : ¬(utf8Valid (List.take v (List.drop len_sz rest)) = true) := hutf
    rw [textChunks, if_neg h1, if_neg h2, hlen] at h
    simp only [] at h
    rw [if_pos hle2, if_neg hutf2] at h
    simp at h
  | case10 b rest h1 h2 v len_sz hlen after hle =>
    intro ts rem h
    have hle2 : ¬(v ≤ (List.drop len_sz rest).length) := hle
    rw [textChunks, if_neg h1, if_neg h2, hlen] at h
    simp only [] at h
    rw [if_neg hle2] at h
    simp at h

theorem bytes_def_ok {d : Deserializer} {bs : List Byte} {d2 : Deserializer} {n sz : Nat}
    (hl : d.cbor_len = Except.ok (Len.Len n, sz)) (h : d.bytes = (Except.ok bs, d2)) :
    bs = (d.buf.drop (1 + sz)).take n ∧ d2 = d.advance (1 + sz + n) ∧
      1 + sz + n ≤ d.buf.length := by
  unfold Deserializer.bytes at h
  cases he : d.cbor_expect_type MajorType.Bytes with
  | error e => rw [he] at h; simp at h
  | ok u =>
    cases u
    rw [he, hl] at h
    simp only [] at h
    by_cases hn : n ≤ ((d.advance (1 + sz)).buf).length
    · rw [if_pos hn] at h
      simp only [Prod.mk.injEq, Except.ok.injEq] at h
      obtain ⟨rfl, rfl⟩ := h
      obtain ⟨b0, hb0, hsz, _⟩ := cbor_len_ok_inv hl
      have hlen : ((d.advance (1 + sz)).buf).length = d.buf.length - (1 + sz) := by
        simp [Deserializer.advance]
      refine ⟨rfl, ?_, by omega⟩
      unfold Deserializer.advance
      simp [List.drop_drop]
    · rw [if_neg hn] at h
      simp at h

theorem bytes_indef_ok {d : Deserializer} {bs : List Byte} {d2 : Deserializer} {sz : Nat}
    (hl : d.cbor_len = Except.ok (Len.Indefinite, sz)) (h : d.bytes = (Except.ok bs, d2)) :
    ∃ ps, chunkPayloads MajorType.Bytes (d.buf.drop (1 + sz)) = some (ps, d2.buf) ∧
      bs = ps.flatten := by
  unfold Deserializer.bytes at h
  cases he : d.cbor_expect_type MajorType.Bytes with
  | error e => rw [he] at h; simp at h
  | ok u =>
    cases u
    rw [he, hl] at h
    simp only [] at h
    cases hbc : bytesChunks ((d.advance (1 + sz)).buf) with
    | mk r rem =>
      cases r with
      | error e => rw [hbc] at h; simp at h
      | ok bs0 =>
        rw [hbc] at h
        simp only [Prod.mk.injEq, Except.ok.injEq] at h
        obtain ⟨rfl, rfl⟩ := h
        obtain ⟨ps, hcp, rfl⟩ := bytesChunks_spec _ _ _ hbc
        exact ⟨ps, hcp, rfl⟩

theorem text_def_ok {d : Deserializer} {ts : List Byte} {d2 : Deserializer} {n sz : Nat}
    (hl : d.cbor_len = Except.ok (Len.Len n, sz)) (h : d.text = (Except.ok ts, d2)) :
    ts = (d.buf.drop (1 + sz)).take n ∧ utf8Valid ts = true ∧
      d2 = d.advance (1 + sz + n) ∧ 1 + sz + n ≤ d.buf.length := by
  unfold Deserializer.text at h
  cases he : d.cbor_expect_type MajorType.Text with
  | error e => rw [he] at h; simp at h
  | ok u =>
    cases u
    rw [he, hl] at h
    simp only [] at h
    by_cases hn : n ≤ ((d.advance (1 + sz)).buf).length
    · rw [if_pos hn] at h
      by_cases hu : utf8Valid (((d.advance (1 + sz)).buf).take n) = true
      · rw [if_pos hu] at h
        simp only [Prod.mk.injEq, Except.ok.injEq] at h
        obtain ⟨rfl, rfl⟩ := h
        obtain ⟨b0, hb0, hsz, _⟩ := cbor_len_ok_inv hl
        have hlen : ((d.advance (1 + sz)).buf).length = d.buf.length - (1 + sz) := by
          simp [Deserializer.advance]
        refine ⟨rfl, hu, ?_, by omega⟩
        unfold Deserializer.advance
        simp [List.drop_drop]
      · rw [if_neg hu] at h
        simp at h
    · rw [if_neg hn] at h
      simp at h

theorem text_indef_ok {d : Deserializer} {ts : List Byte} {d2 : Deserializer} {sz : Nat}
    (hl : d.cbor_len = Except.ok (Len.Indefinite, sz)) (h : d.text = (Except.ok ts, d2)) :
    ∃ ps, chunkPayloads MajorType.Text (d.buf.drop (1 + sz)) = some (ps, d2.buf) ∧
      ts = ps.flatten ∧ ∀ p ∈ ps, utf8Valid p = true := by
  unfold Deserializer.text at h
  cases he : d.cbor_expect_type MajorType.Text with
  | error e => rw [he] at h; simp at h
  | ok u =>
    cases u
    rw [he, hl] at h
    simp only [] at h
    cases htc : textChunks ((d.advance (1 + sz)).buf) with
    | mk r rem =>
      cases r with
      | error e => rw [htc] at h; simp at h
      | ok ts0 =>
        rw [htc] at h
        simp only [Prod.mk.injEq, Except.ok.injEq] at h
        obtain ⟨rfl, rfl⟩ := h
        obtain ⟨ps, hcp, rfl, hall⟩ := textChunks_spec _ _ _ htc
        exact ⟨ps, hcp, rfl, hall⟩

theorem wrap_neg_sub_one {v : Nat} (hv : v < 2 ^ 64) :
    wrapI64 (wrapI64 (-(i64OfU64 v)) - 1) = -(i64OfU64 v) - 1 := by
  unfold wrapI64 i64OfU64
  have e63 : (2 : Int) ^ 63 = 9223372036854775808 := by norm_num
  have e64 : (2 : Int) ^ 64 = 18446744073709551616 := by norm_num
  have n63 : (2 : Nat) ^ 63 = 9223372036854775808 := by norm_num
  have n64 : (2 : Nat) ^ 64 = 18446744073709551616 := by norm_num
  rw [n64] at hv
  by_cases h63 : v < 2 ^ 63
  · rw [if_pos h63]
    rw [n63] at h63
    rw [e63, e64]
    omega
  · rw [if_neg h63]
    rw [n63] at h63
    rw [e63, e64]
    omega

theorem negative_integer_eq {d : Deserializer} {b0 : Byte} {v sz : Nat}
    (h0 : d.buf.get? 0 = some b0) (ht : MajorType.fromByte b0 = MajorType.NegativeInteger)
    (hl : d.cbor_len = Except.ok (Len.Len v, sz)) :
    d.negative_integer = (Except.ok (-(i64OfU64 v) - 1), d.advance (1 + sz)) := by
  unfold Deserializer.negative_integer
  rw [cbor_expect_type_eq h0 ht, hl]
  simp only []
  obtain ⟨b0x, hb0x, hle, hlt⟩ := cbor_len_ok_inv hl
  rw [wrap_neg_sub_one (hlt v rfl)]

theorem negative_integer_indef {d : Deserializer} {b0 : Byte} {sz : Nat}
    (h0 : d.buf.get? 0 = some b0) (ht : MajorType.fromByte b0 = MajorType.NegativeInteger)
    (hl : d.cbor_len = Except.ok (Len.Indefinite, sz)) :
    d.negative_integer =
      (Except.error (Error.IndefiniteLenNotSupported MajorType.NegativeInteger), d) := by
  unfold Deserializer.negative_integer
  rw [cbor_expect_type_eq h0 ht, hl]

/-- Claim C1: for every input byte sequence, the length-header decoder
`cbor_len` masks the low 5 bits of byte 0 and returns, without
consuming any bytes (it is a pure peek in this embedding): a definite
length equal to the 5 bits themselves with 0 extra bytes for selectors
`0x00`–`0x17`; the next 1/2/4/8 bytes interpreted big-endian with
1/2/4/8 extra bytes for selectors `0x18`/`0x19`/`0x1a`/`0x1b`; an
`UnknownLenType` error for selectors `0x1c`–`0x1e`; and the indefinite
marker with 0 extra bytes for selector `0x1f`. -/
theorem claim_C1 :
    (∀ (d : Deserializer) (b0 : Byte), d.buf.get? 0 = some b0 →
      b0.val &&& 0x1f ≤ 0x17 →
      d.cbor_len = Except.ok (Len.Len (b0.val &&& 0x1f), 0)) ∧
    (∀ (d : Deserializer) (b0 b1 : Byte), d.buf.get? 0 = some b0 →
      b0.val &&& 0x1f = 0x18 → d.buf.get? 1 = some b1 →
      d.cbor_len = Except.ok (Len.Len (beValue [b1]), 1)) ∧
    (∀ (d : Deserializer) (b0 b1 b2 : Byte), d.buf.get? 0 = some b0 →
      b0.val &&& 0x1f = 0x19 → d.buf.get? 1 = some b1 → d.buf.get? 2 = some b2 →
      d.cbor_len = Except.ok (Len.Len (beValue [b1, b2]), 2)) ∧
    (∀ (d : Deserializer) (b0 b1 b2 b3 b4 : Byte), d.buf.get? 0 = some b0 →
      b0.val &&& 0x1f = 0x1a → d.buf.get? 1 = some b1 → d.buf.get? 2 = some b2 →
      d.buf.get? 3 = some b3 → d.buf.get? 4 = some b4 →
      d.cbor_len = Except.ok (Len.Len (beValue [b1, b2, b3, b4]), 4)) ∧
    (∀ (d : Deserializer) (b0 b1 b2 b3 b4 b5 b6 b7 b8 : Byte), d.buf.get? 0 = some b0 →
      b0.val &&& 0x1f = 0x1b → d.buf.get? 1 = some b1 → d.buf.get? 2 = some b2 →
      d.buf.get? 3 = some b3 → d.buf.get? 4 = some b4 → d.buf.get? 5 = some b5 →
      d.buf.get? 6 = some b6 → d.buf.get? 7 = some b7 → d.buf.get? 8 = some b8 →
      d.cbor_len = Except.ok (Len.Len (beValue [b1, b2, b3, b4, b5, b6, b7, b8]), 8)) ∧
    (∀ (d : Deserializer) (b0 : Byte), d.buf.get? 0 = some b0 →
      0x1c ≤ b0.val &&& 0x1f → b0.val &&& 0x1f ≤ 0x1e →
      d.cbor_len = Except.error (Error.UnknownLenType (b0.val &&& 0x1f))) ∧
    (∀ (d : Deserializer) (b0 : Byte), d.buf.get? 0 = some b0 →
      b0.val &&& 0x1f = 0x1f →
      d.cbor_len = Except.ok (Len.Indefinite, 0)) := by
  refine ⟨?_, ?_, ?_, ?_, ?_, ?_, ?_⟩
  · intro d b0 h0 hs
    exact cbor_len_imm h0 hs
  · intro d b0 b1 h0 hs h1
    exact cbor_len_u8 h0 hs h1
  · intro d b0 b1 b2 h0 hs h1 h2
    exact cbor_len_u16 h0 hs h1 h2
  · intro d b0 b1 b2 b3 b4 h0 hs h1 h2 h3 h4
    exact cbor_len_u32 h0 hs h1 h2 h3 h4
  · intro d b0 b1 b2 b3 b4 b5 b6 b7 b8 h0 hs h1 h2 h3 h4 h5 h6 h7 h8
    exact cbor_len_u64 h0 hs h1 h2 h3 h4 h5 h6 h7 h8
  · intro d b0 h0 hs1 hs2
    exact cbor_len_reserved h0 hs1 hs2
  · intro d b0 h0 hs
    exact cbor_len_indef h0 hs

/-- Witness for C1 at concrete inputs: a two-byte big-endian length
header, a reserved selector, and the indefinite marker. -/
theorem claim_C1_witness :
    Deserializer.cbor_len ⟨[0x99, 0x01, 0x02]⟩ =
      Except.ok (Len.Len (beValue [0x01, 0x02]), 2) ∧
    Deserializer.cbor_len ⟨[0x1c]⟩ = Except.error (Error.UnknownLenType 0x1c) ∧
    Deserializer.cbor_len ⟨[0x5f]⟩ = Except.ok (Len.Indefinite, 0) := by
  refine ⟨?_, ?_, ?_⟩
  · exact claim_C1.2.2.1 ⟨[0x99, 0x01, 0x02]⟩ 0x99 0x01 0x02 (by decide) (by decide)
      (by decide) (by decide)
  · exact claim_C1.2.2.2.2.2.1 ⟨[0x1c]⟩ 0x1c (by decide) (by decide) (by decide)
  · exact claim_C1.2.2.2.2.2.2 ⟨[0x5f]⟩ 0x5f (by decide) (by decide)

/-- Claim C3: on a `NegativeInteger` value with definite header value
`v`, `negative_integer` consumes the header and returns
`-(v as i64) - 1` (the cast and arithmetic as in the source; the result
always fits `i64`, so the wrapping model equals the plain integer
expression); an indefinite header fails with
`IndefiniteLenNotSupported(NegativeInteger)`; on `[0x38, 0x29]` the
result is `-42`. -/
theorem claim_C3 :
    (∀ (d : Deserializer) (b0 : Byte) (v sz : Nat), d.buf.get? 0 = some b0 →
      MajorType.fromByte b0 = MajorType.NegativeInteger →
      d.cbor_len = Except.ok (Len.Len v, sz) →
      d.negative_integer = (Except.ok (-(i64OfU64 v) - 1), d.advance (1 + sz))) ∧
    (∀ (d : Deserializer) (b0 : Byte) (sz : Nat), d.buf.get? 0 = some b0 →
      MajorType.fromByte b0 = MajorType.NegativeInteger →
      d.cbor_len = Except.ok (Len.Indefinite, sz) →
      d.negative_integer =
        (Except.error (Error.IndefiniteLenNotSupported MajorType.NegativeInteger), d)) ∧
    Deserializer.negative_integer ⟨[0x38, 0x29]⟩ = (Except.ok (-42), ⟨[]⟩) := by
  refine ⟨?_, ?_, by rfl⟩
  · intro d b0 v sz h0 ht hl
    exact negative_integer_eq h0 ht hl
  · intro d b0 sz h0 ht hl
    exact negative_integer_indef h0 ht hl

/-- Witness for C3: the general clauses applied to `[0x38, 0x29]`
(value 41, one extra header byte) and to an indefinite negative-integer
header `[0x3f]`. -/
theorem claim_C3_witness :
    Deserializer.negative_integer ⟨[0x38, 0x29]⟩ =
      (Except.ok (-(i64OfU64 41) - 1), Deserializer.advance ⟨[0x38, 0x29]⟩ 2) ∧
    Deserializer.negative_integer ⟨[0x3f]⟩ =
      (Except.error (Error.IndefiniteLenNotSupported MajorType.NegativeInteger),
        ⟨[0x3f]⟩) := by
  constructor
  · exact claim_C3.1 ⟨[0x38, 0x29]⟩ 0x38 41 1 (by decide) (by decide) (by rfl)
  · exact claim_C3.2.1 ⟨[0x3f]⟩ 0x3f 0 (by decide) (by decide) (by rfl)

/-- Claim C4: on a `Special` value, `special` decodes by the low-5-bit
subtype exactly as specified: `0x00`–`0x13` unassigned, `0x14`/`0x15`
booleans, `0x16` null, `0x17` undefined, `0x18` a 1-byte unassigned
code, `0x19`/`0x1a`/`0x1b` a float from the following 2/4/8 bytes,
`0x1c`–`0x1e` unassigned, `0x1f` break; the float payload is the
big-endian unsigned integer value of those bytes (numerically cast to
`f64` in the source), not an IEEE-754 reinterpretation — witnessed by
the half-precision encoding of 1.0, `[0xf9, 0x3c, 0x00]`, decoding to
the numeric value 15360 rather than 1. -/
theorem claim_C4 :
    (∀ (d : Deserializer) (b0 : Byte), d.buf.get? 0 = some b0 →
      MajorType.fromByte b0 = MajorType.Special → b0.val &&& 0x1f ≤ 0x13 →
      d.special = (Except.ok (Special.Unassigned (b0.val &&& 0x1f)), d.advance 1)) ∧
    (∀ (d : Deserializer) (b0 : Byte), d.buf.get? 0 = some b0 →
      MajorType.fromByte b0 = MajorType.Special → b0.val &&& 0x1f = 0x14 →
      d.special = (Except.ok (Special.Bool false), d.advance 1)) ∧
    (∀ (d : Deserializer) (b0 : Byte), d.buf.get? 0 = some b0 →
      MajorType.fromByte b0 = MajorType.Special → b0.val &&& 0x1f = 0x15 →
      d.special = (Except.ok (Special.Bool true), d.advance 1)) ∧
    (∀ (d : Deserializer) (b0 : Byte), d.buf.get? 0 = some b0 →
      MajorType.fromByte b0 = MajorType.Special → b0.val &&& 0x1f = 0x16 →
      d.special = (Except.ok Special.Null, d.advance 1)) ∧
    (∀ (d : Deserializer) (b0 : Byte), d.buf.get? 0 = some b0 →
      MajorType.fromByte b0 = MajorType.Special → b0.val &&& 0x1f = 0x17 →
      d.special = (Except.ok Special.Undefined, d.advance 1)) ∧
    (∀ (d : Deserializer) (b0 b1 : Byte), d.buf.get? 0 = some b0 →
      MajorType.fromByte b0 = MajorType.Special → b0.val &&& 0x1f = 0x18 →
      d.buf.get? 1 = some b1 →
      d.special = (Except.ok (Special.Unassigned b1.val), d.advance 2)) ∧
    (∀ (d : Deserializer) (b0 b1 b2 : Byte), d.buf.get? 0 = some b0 →
      MajorType.fromByte b0 = MajorType.Special → b0.val &&& 0x1f = 0x19 →
      d.buf.get? 1 = some b1 → d.buf.get? 2 = some b2 →
      d.special = (Except.ok (Special.Float (beValue [b1, b2])), d.advance 3)) ∧
    (∀ (d : Deserializer) (b0 b1 b2 b3 b4 : Byte), d.buf.get? 0 = some b0 →
      MajorType.fromByte b0 = MajorType.Special → b0.val &&& 0x1f = 0x1a →
      d.buf.get? 1 = some b1 → d.buf.get? 2 = some b2 → d.buf.get? 3 = some b3 →
      d.buf.get? 4 = some b4 →
      d.special = (Except.ok (Special.Float (beValue [b1, b2, b3, b4])), d.advance 5)) ∧
    (∀ (d : Deserializer) (b0 b1 b2 b3 b4 b5 b6 b7 b8 : Byte), d.buf.get? 0 = some b0 →
      MajorType.fromByte b0 = MajorType.Special → b0.val &&& 0x1f = 0x1b →
      d.buf.get? 1 = some b1 → d.buf.get? 2 = some b2 → d.buf.get? 3 = some b3 →
      d.buf.get? 4 = some b4 → d.buf.get? 5 = some b5 → d.buf.get? 6 = some b6 →
      d.buf.get? 7 = some b7 → d.buf.get? 8 = some b8 →
      d.special =
        (Except.ok (Special.Float (beValue [b1, b2, b3, b4, b5, b6, b7, b8])),
          d.advance 9)) ∧
    (∀ (d : Deserializer) (b0 : Byte), d.buf.get? 0 = some b0 →
      MajorType.fromByte b0 = MajorType.Special →
      0x1c ≤ b0.val &&& 0x1f → b0.val &&& 0x1f ≤ 0x1e →
      d.special = (Except.ok (Special.Unassigned (b0.val &&& 0x1f)), d.advance 1)) ∧
    (∀ (d : Deserializer) (b0 : Byte), d.buf.get? 0 = some b0 →
      MajorType.fromByte b0 = MajorType.Special → b0.val &&& 0x1f = 0x1f →
      d.special = (Except.ok Special.Break, d.advance 1)) ∧
    Deserializer.special ⟨[0xf9, 0x3c, 0x00]⟩ =
      (Except.ok (Special.Float 15360), ⟨[]⟩) := by
  refine ⟨?_, ?_, ?_, ?_, ?_, ?_, ?_, ?_, ?_, ?_, ?_, by rfl⟩
  · intro d b0 h0 ht hm
    exact special_eq_unassigned_low h0 ht hm
  · intro d b0 h0 ht hm
    exact special_eq_bool_false h0 ht hm
  · intro d b0 h0 ht hm
    exact special_eq_bool_true h0 ht hm
  · intro d b0 h0 ht hm
    exact special_eq_null h0 ht hm
  · intro d b0 h0 ht hm
    exact special_eq_undefined h0 ht hm
  · intro d b0 b1 h0 ht hm h1
    exact special_eq_unassigned_ext h0 ht hm h1
  · intro d b0 b1 b2 h0 ht hm h1 h2
    exact special_eq_float16 h0 ht hm h1 h2
  · intro d b0 b1 b2 b3 b4 h0 ht hm h1 h2 h3 h4
    exact special_eq_float32 h0 ht hm h1 h2 h3 h4
  · intro d b0 b1 b2 b3 b4 b5 b6 b7 b8 h0 ht hm h1 h2 h3 h4 h5 h6 h7 h8
    exact special_eq_float64 h0 ht hm h1 h2 h3 h4 h5 h6 h7 h8
  · intro d b0 h0 ht hm1 hm2
    exact special_eq_unassigned_reserved h0 ht hm1 hm2
  · intro d b0 h0 ht hm
    exact special_eq_break h0 ht hm

/-- Witness for C4: a boolean, the break marker, and the half-float
`1.0` encoding decoding to the numeric value of its bytes. -/
theorem claim_C4_witness :
    Deserializer.special ⟨[0xf5]⟩ = (Except.ok (Special.Bool true), ⟨[]⟩) ∧
    Deserializer.special ⟨[0xff]⟩ = (Except.ok Special.Break, ⟨[]⟩) ∧
    Deserializer.special ⟨[0xf9, 0x3c, 0x00]⟩ =
      (Except.ok (Special.Float (beValue [0x3c, 0x00])), ⟨[]⟩) := by
  refine ⟨?_, ?_, ?_⟩
  · exact claim_C4.2.2.1 ⟨[0xf5]⟩ 0xf5 (by decide) (by decide) (by decide)
  · exact claim_C4.2.2.2.2.2.2.2.2.2.2.1 ⟨[0xff]⟩ 0xff (by decide) (by decide) (by decide)
  · exact claim_C4.2.2.2.2.2.2.1 ⟨[0xf9, 0x3c, 0x00]⟩ 0xf9 0x3c 0x00 (by decide)
      (by decide) (by decide) (by decide) (by decide)

/-- Claim C8: `special_break` on a `Special` item consumes exactly one
byte and returns `true` when the low 5 bits are the break code `0x1f`;
returns `false` consuming nothing otherwise; and on any other major
type fails with `Expected(Special, actual)` consuming nothing. -/
theorem claim_C8 :
    (∀ (d : Deserializer) (b0 : Byte), d.buf.get? 0 = some b0 →
      MajorType.fromByte b0 = MajorType.Special → b0.val &&& 0x1f = 0x1f →
      d.special_break = (Except.ok true, d.advance 1)) ∧
    (∀ (d : Deserializer) (b0 : Byte), d.buf.get? 0 = some b0 →
      MajorType.fromByte b0 = MajorType.Special → ¬(b0.val &&& 0x1f = 0x1f) →
      d.special_break = (Except.ok false, d)) ∧
    (∀ (d : Deserializer) (b0 : Byte), d.buf.get? 0 = some b0 →
      MajorType.fromByte b0 ≠ MajorType.Special →
      d.special_break =
        (Except.error (Error.Expected MajorType.Special (MajorType.fromByte b0)), d)) := by
  refine ⟨?_, ?_, ?_⟩
  · intro d b0 h0 ht hm
    exact special_break_true h0 ht hm
  · intro d b0 h0 ht hm
    exact special_break_false h0 ht hm
  · intro d b0 h0 ht
    exact special_break_mismatch h0 ht

/-- Witness for C8: the break byte `0xff` (consumed), a non-break
special `0xf5` (not consumed), and a type mismatch on an unsigned
integer byte. -/
theorem claim_C8_witness :
    Deserializer.special_break ⟨[0xff, 0x00]⟩ =
      (Except.ok true, Deserializer.advance ⟨[0xff, 0x00]⟩ 1) ∧
    Deserializer.special_break ⟨[0xf5]⟩ = (Except.ok false, ⟨[0xf5]⟩) ∧
    Deserializer.special_break ⟨[0x17]⟩ =
      (Except.error (Error.Expected MajorType.Special (MajorType.fromByte 0x17)),
        ⟨[0x17]⟩) := by
  refine ⟨?_, ?_, ?_⟩
  · exact claim_C8.1 ⟨[0xff, 0x00]⟩ 0xff (by decide) (by decide) (by decide)
  · exact claim_C8.2.1 ⟨[0xf5]⟩ 0xf5 (by decide) (by decide) (by decide)
  · exact claim_C8.2.2 ⟨[0x17]⟩ 0x17 (by decide) (by decide)

/-- Claim C9: classification is non-consuming and pure: `cbor_type` is
determined by the next unread byte alone (so any number of calls
before a consume returns the same result and cannot alter a later
decode — in this embedding the peeks take the state and return none),
and the major type is derived purely from the top 3 bits of that byte:
two bytes with equal top 3 bits classify identically.  `cbor_len` is
likewise a pure function of the unconsumed bytes. -/
theorem claim_C9 :
    (∀ (d : Deserializer) (b0 : Byte), d.buf.get? 0 = some b0 →
      d.cbor_type = Except.ok (MajorType.fromByte b0)) ∧
    (∀ b b' : Byte, b.val >>> 5 = b'.val >>> 5 →
      MajorType.fromByte b = MajorType.fromByte b') ∧
    (∀ d d' : Deserializer, d.buf = d'.buf →
      d.cbor_type = d'.cbor_type ∧ d.cbor_len = d'.cbor_len) := by
  refine ⟨?_, ?_, ?_⟩
  · intro d b0 h0
    exact cbor_type_eq h0
  · intro b b' h
    unfold MajorType.fromByte
    rw [h]
  · intro d d' h
    cases d
    cases d'
    cases h
    exact ⟨rfl, rfl⟩

/-- Witness for C9: the classification of `[0x18, 0x40]` as an unsigned
integer, agreement of two bytes sharing the top 3 bits, and stability
of the peeks across equal states. -/
theorem claim_C9_witness :
    Deserializer.cbor_type ⟨[0x18, 0x40]⟩ =
      Except.ok (MajorType.fromByte 0x18) ∧
    MajorType.fromByte 0x3a = MajorType.fromByte 0x25 ∧
    (Deserializer.cbor_type ⟨[0x83]⟩ = Deserializer.cbor_type ⟨[0x83]⟩ ∧
      Deserializer.cbor_len ⟨[0x83]⟩ = Deserializer.cbor_len ⟨[0x83]⟩) := by
  refine ⟨?_, ?_, ?_⟩
  · exact claim_C9.1 ⟨[0x18, 0x40]⟩ 0x18 (by decide)
  · exact claim_C9.2.1 0x3a 0x25 (by decide)
  · exact claim_C9.2.2 ⟨[0x83]⟩ ⟨[0x83]⟩ (by rfl)

/-- Claim C5: every successful primitive read consumes exactly the
bytes the value owns and leaves the cursor at the first byte after
them: the integer, array, map and tag readers consume exactly the
`1 + len_sz` header bytes; `special` consumes exactly the subtype's
byte count; definite `bytes`/`text` consume header plus `n` payload
bytes; indefinite `bytes`/`text` consume exactly through the single
break byte of the chunk grammar, leaving the grammar's remainder. -/
theorem claim_C5 :
    (∀ (d : Deserializer) (v : Nat) (d2 : Deserializer),
      d.unsigned_integer = (Except.ok v, d2) →
      ∃ sz, d.cbor_len = Except.ok (Len.Len v, sz) ∧ d2 = d.advance (1 + sz) ∧
        1 + sz ≤ d.buf.length) ∧
    (∀ (d : Deserializer) (i : Int) (d2 : Deserializer),
      d.negative_integer = (Except.ok i, d2) →
      ∃ v sz, d.cbor_len = Except.ok (Len.Len v, sz) ∧ d2 = d.advance (1 + sz) ∧
        1 + sz ≤ d.buf.length) ∧
    (∀ (d : Deserializer) (v : Nat) (d2 : Deserializer),
      d.tag = (Except.ok v, d2) →
      ∃ sz, d.cbor_len = Except.ok (Len.Len v, sz) ∧ d2 = d.advance (1 + sz) ∧
        1 + sz ≤ d.buf.length) ∧
    (∀ (d : Deserializer) (len : Len) (d2 : Deserializer),
      d.array = (Except.ok len, d2) →
      ∃ sz, d.cbor_len = Except.ok (len, sz) ∧ d2 = d.advance (1 + sz) ∧
        1 + sz ≤ d.buf.length) ∧
    (∀ (d : Deserializer) (len : Len) (d2 : Deserializer),
      d.map = (Except.ok len, d2) →
      ∃ sz, d.cbor_len = Except.ok (len, sz) ∧ d2 = d.advance (1 + sz) ∧
        1 + sz ≤ d.buf.length) ∧
    (∀ (d : Deserializer) (s : Special) (d2 : Deserializer),
      d.special = (Except.ok s, d2) →
      ∃ b0, d.buf.get? 0 = some b0 ∧
        d2 = d.advance (specialSize (b0.val &&& 0x1f)) ∧
        specialSize (b0.val &&& 0x1f) ≤ d.buf.length) ∧
    (∀ (d : Deserializer) (bs : List Byte) (d2 : Deserializer) (n sz : Nat),
      d.cbor_len = Except.ok (Len.Len n, sz) → d.bytes = (Except.ok bs, d2) →
      bs = (d.buf.drop (1 + sz)).take n ∧ d2 = d.advance (1 + sz + n) ∧
        1 + sz + n ≤ d.buf.length) ∧
    (∀ (d : Deserializer) (bs : List Byte) (d2 : Deserializer) (sz : Nat),
      d.cbor_len = Except.ok (Len.Indefinite, sz) → d.bytes = (Except.ok bs, d2) →
      ∃ ps, chunkPayloads MajorType.Bytes (d.buf.drop (1 + sz)) = some (ps, d2.buf) ∧
        bs = ps.flatten) ∧
    (∀ (d : Deserializer) (ts : List Byte) (d2 : Deserializer) (n sz : Nat),
      d.cbor_len = Except.ok (Len.Len n, sz) → d.text = (Except.ok ts, d2) →
      ts = (d.buf.drop (1 + sz)).take n ∧ d2 = d.advance (1 + sz + n) ∧
        1 + sz + n ≤ d.buf.length) ∧
    (∀ (d : Deserializer) (ts : List Byte) (d2 : Deserializer) (sz : Nat),
      d.cbor_len = Except.ok (Len.Indefinite, sz) → d.text = (Except.ok ts, d2) →
      ∃ ps, chunkPayloads MajorType.Text (d.buf.drop (1 + sz)) = some (ps, d2.buf) ∧
        ts = ps.flatten) := by
  refine ⟨?_, ?_, ?_, ?_, ?_, ?_, ?_, ?_, ?_, ?_⟩
  · intro d v d2 h
    obtain ⟨sz, h1, h2, h3, _⟩ := unsigned_integer_ok h
    exact ⟨sz, h1, h2, h3⟩
  · intro d i d2 h
    obtain ⟨v, sz, h1, h2, h3, _⟩ := negative_integer_ok h
    exact ⟨v, sz, h1, h2, h3⟩
  · intro d v d2 h
    exact tag_ok h
  · intro d len d2 h
    exact array_ok h
  · intro d len d2 h
    exact map_ok h
  · intro d s d2 h
    obtain ⟨b0, h1, _, h3, h4⟩ := special_ok h
    exact ⟨b0, h1, h3, h4⟩
  · intro d bs d2 n sz hl h
    exact bytes_def_ok hl h
  · intro d bs d2 sz hl h
    exact bytes_indef_ok hl h
  · intro d ts d2 n sz hl h
    obtain ⟨h1, _, h3, h4⟩ := text_def_ok hl h
    exact ⟨h1, h3, h4⟩
  · intro d ts d2 sz hl h
    obtain ⟨ps, h1, h2, _⟩ := text_indef_ok hl h
    exact ⟨ps, h1, h2⟩

/- Witness for C5: exact consumption at concrete inputs — a two-byte
unsigned integer, a three-byte half-float special, a definite byte
string, and indefinite byte and text strings. -/
unseal bytesChunks textChunks in
theorem claim_C5_witness :
    (∃ sz, Deserializer.cbor_len ⟨[0x18, 0x40]⟩ = Except.ok (Len.Len 64, sz) ∧
      (⟨[]⟩ : Deserializer) = Deserializer.advance ⟨[0x18, 0x40]⟩ (1 + sz) ∧
      1 + sz ≤ (Deserializer.mk [0x18, 0x40]).buf.length) ∧
    (∃ b0, (Deserializer.mk [0xf9, 0x3c, 0x00]).buf.get? 0 = some b0 ∧
      (⟨[]⟩ : Deserializer) =
        Deserializer.advance ⟨[0xf9, 0x3c, 0x00]⟩ (specialSize (b0.val &&& 0x1f)) ∧
      specialSize (b0.val &&& 0x1f) ≤ (Deserializer.mk [0xf9, 0x3c, 0x00]).buf.length) ∧
    (([0xAA, 0xBB] : List Byte) =
        ((Deserializer.mk [0x42, 0xAA, 0xBB]).buf.drop (1 + 0)).take 2 ∧
      (⟨[]⟩ : Deserializer) = Deserializer.advance ⟨[0x42, 0xAA, 0xBB]⟩ (1 + 0 + 2) ∧
      1 + 0 + 2 ≤ (Deserializer.mk [0x42, 0xAA, 0xBB]).buf.length) ∧
    (∃ ps, chunkPayloads MajorType.Bytes
        ((Deserializer.mk [0x5f, 0x41, 0x01, 0xff]).buf.drop (1 + 0)) =
          some (ps, (Deserializer.mk []).buf) ∧
      ([0x01] : List Byte) = ps.flatten) ∧
    (∃ ps, chunkPayloads MajorType.Text
        ((Deserializer.mk [0x7f, 0x64, 0x49, 0x45, 0x54, 0x46, 0x61, 0x61, 0xff]).buf.drop
          (1 + 0)) = some (ps, (Deserializer.mk []).buf) ∧
      ([0x49, 0x45, 0x54, 0x46, 0x61] : List Byte) = ps.flatten) := by
  refine ⟨?_, ?_, ?_, ?_, ?_⟩
  · exact claim_C5.1 ⟨[0x18, 0x40]⟩ 64 ⟨[]⟩ (by rfl)
  · exact claim_C5.2.2.2.2.2.1 ⟨[0xf9, 0x3c, 0x00]⟩ (Special.Float 15360) ⟨[]⟩ (by rfl)
  · exact claim_C5.2.2.2.2.2.2.1 ⟨[0x42, 0xAA, 0xBB]⟩ [0xAA, 0xBB] ⟨[]⟩ 2 0 (by rfl)
      (by rfl)
  · exact claim_C5.2.2.2.2.2.2.2.1 ⟨[0x5f, 0x41, 0x01, 0xff]⟩ [0x01] ⟨[]⟩ 0 (by rfl)
      (by rfl)
  · exact claim_C5.2.2.2.2.2.2.2.2.2 ⟨[0x7f, 0x64, 0x49, 0x45, 0x54, 0x46, 0x61, 0x61, 0xff]⟩
      [0x49, 0x45, 0x54, 0x46, 0x61] ⟨[]⟩ 0 (by rfl) (by rfl)

/-- Claim C2: a successful indefinite-length `bytes`/`text` decode
returns exactly the concatenation of the chunk payloads in encounter
order, the loop being closed by the single break byte of the chunk
grammar (`chunkPayloads` consumes exactly one `0xff` terminator and
yields the remainder after it); every chunk is a definite-length value
of the same major type; a chunk that is itself indefinite fails with
`InvalidIndefiniteString`; and `text` validates each chunk's payload as
UTF-8 on its own, so a multi-byte UTF-8 code point split across two
chunks is rejected with a UTF-8 decoding error, as on the concrete
input whose first chunk ends with the lead byte `0xC3` and whose second
chunk starts with the continuation byte `0xA9`. -/
theorem claim_C2 :
    (∀ (d : Deserializer) (b0 : Byte) (bs : List Byte) (d2 : Deserializer),
      d.buf.get? 0 = some b0 → MajorType.fromByte b0 = MajorType.Bytes →
      b0.val &&& 0x1f = 0x1f → d.bytes = (Except.ok bs, d2) →
      ∃ ps, chunkPayloads MajorType.Bytes (d.buf.drop 1) = some (ps, d2.buf) ∧
        bs = ps.flatten) ∧
    (∀ (d : Deserializer) (b0 : Byte) (ts : List Byte) (d2 : Deserializer),
      d.buf.get? 0 = some b0 → MajorType.fromByte b0 = MajorType.Text →
      b0.val &&& 0x1f = 0x1f → d.text = (Except.ok ts, d2) →
      ∃ ps, chunkPayloads MajorType.Text (d.buf.drop 1) = some (ps, d2.buf) ∧
        ts = ps.flatten ∧ ∀ p ∈ ps, utf8Valid p = true) ∧
    (∀ (b : Byte) (rest : List Byte), MajorType.fromByte b = MajorType.Bytes →
      b.val &&& 0x1f = 0x1f →
      bytesChunks (b :: rest) = (Except.error Error.InvalidIndefiniteString, b :: rest)) ∧
    (∀ (b : Byte) (rest : List Byte), MajorType.fromByte b = MajorType.Text →
      b.val &&& 0x1f = 0x1f →
      textChunks (b :: rest) = (Except.error Error.InvalidIndefiniteString, b :: rest)) ∧
    (Deserializer.text ⟨[0x7f, 0x61, 0xC3, 0x61, 0xA9, 0xff]⟩).1 =
      Except.error Error.Utf8Error := by
  refine ⟨?_, ?_, ?_, ?_, ?_⟩
  · intro d b0 bs d2 h0 ht hm h
    have hl : d.cbor_len = Except.ok (Len.Indefinite, 0) := cbor_len_indef h0 hm
    have := bytes_indef_ok hl h
    simpa using this
  · intro d b0 ts d2 h0 ht hm h
    have hl : d.cbor_len = Except.ok (Len.Indefinite, 0) := cbor_len_indef h0 hm
    have := text_indef_ok hl h
    simpa using this
  · intro b rest ht hm
    have hb : (⟨b :: rest⟩ : Deserializer).buf.get? 0 = some b := rfl
    have hns : ¬(MajorType.fromByte b = MajorType.Special) := by
      rw [ht]
      decide
    have hnb : ¬(MajorType.fromByte b ≠ MajorType.Bytes) := by
      rw [ht]
      simp
    rw [bytesChunks, if_neg hns, if_neg hnb, cbor_len_indef hb hm]
  · intro b rest ht hm
    have hb : (⟨b :: rest⟩ : Deserializer).buf.get? 0 = some b := rfl
    have hns : ¬(MajorType.fromByte b = MajorType.Special) := by
      rw [ht]
      decide
    have hnt : ¬(MajorType.fromByte b ≠ MajorType.Text) := by
      rw [ht]
      simp
    rw [textChunks, if_neg hns, if_neg hnt, cbor_len_indef hb hm]
  · have hb : (⟨[0x7f, 0x61, 0xC3, 0x61, 0xA9, 0xff]⟩ : Deserializer).buf.get? 0 =
        some 0x7f := rfl
    have hl : (⟨[0x7f, 0x61, 0xC3, 0x61, 0xA9, 0xff]⟩ : Deserializer).cbor_len =
        Except.ok (Len.Indefinite, 0) := cbor_len_indef hb (by decide)
    unfold Deserializer.text
    rw [cbor_expect_type_eq hb (by decide), hl]
    simp only []
    have hstep : textChunks [0x61, 0xC3, 0x61, 0xA9, 0xff] =
        (Except.error Error.Utf8Error, [0x61, 0xA9, 0xff]) := by
      have h61 : (⟨[0x61, 0xC3, 0x61, 0xA9, 0xff]⟩ : Deserializer).cbor_len =
          Except.ok (Len.Len 1, 0) := by
        have := @cbor_len_imm ⟨[0x61, 0xC3, 0x61, 0xA9, 0xff]⟩ 0x61 rfl (by decide)
        simpa using this
      rw [textChunks, if_neg (by decide), if_neg (by decide), h61]
      simp only []
      rw [if_pos (by decide), if_neg (by decide)]
      rfl
    rw [show (Deserializer.advance ⟨[0x7f, 0x61, 0xC3, 0x61, 0xA9, 0xff]⟩ (1 + 0)).buf =
      [0x61, 0xC3, 0x61, 0xA9, 0xff] from rfl, hstep]

/- Witness for C2: the indefinite byte string `[0x5f, 0x41, 0x01, 0xff]`
and the indefinite text string `"IETF" ++ "a"`, plus the loop-level
rejection of a nested indefinite chunk. -/
unseal bytesChunks textChunks in
theorem claim_C2_witness :
    (∃ ps, chunkPayloads MajorType.Bytes
        ((Deserializer.mk [0x5f, 0x41, 0x01, 0xff]).buf.drop 1) =
          some (ps, (Deserializer.mk []).buf) ∧ ([0x01] : List Byte) = ps.flatten) ∧
    (∃ ps, chunkPayloads MajorType.Text
        ((Deserializer.mk [0x7f, 0x64, 0x49, 0x45, 0x54, 0x46, 0x61, 0x61, 0xff]).buf.drop
          1) = some (ps, (Deserializer.mk []).buf) ∧
      ([0x49, 0x45, 0x54, 0x46, 0x61] : List Byte) = ps.flatten ∧
      ∀ p ∈ ps, utf8Valid p = true) ∧
    bytesChunks (0x5f :: [0xff]) =
      (Except.error Error.InvalidIndefiniteString, 0x5f :: [0xff]) := by
  refine ⟨?_, ?_, ?_⟩
  · exact claim_C2.1 ⟨[0x5f, 0x41, 0x01, 0xff]⟩ 0x5f [0x01] ⟨[]⟩ (by decide) (by decide)
      (by decide) (by rfl)
  · exact claim_C2.2.1 ⟨[0x7f, 0x64, 0x49, 0x45, 0x54, 0x46, 0x61, 0x61, 0xff]⟩ 0x7f
      [0x49, 0x45, 0x54, 0x46, 0x61] ⟨[]⟩ (by decide) (by decide) (by decide) (by rfl)
  · exact claim_C2.2.2.1 0x5f [0xff] (by decide) (by decide)

/-- Claim C7: decoding an optional value reads an array header and
succeeds exactly on arrays of length 0 (absent) and length 1 (the
single element decoded by the element decoder), for every element type
and element decoder; every other length — any definite length of at
least 2, and the indefinite length — is rejected with a descriptive
`CustomError`. -/
theorem claim_C7 :
    (∀ (α : Type) (f : Deserializer → Except Error α × Deserializer)
      (d d0 : Deserializer), d.array = (Except.ok (Len.Len 0), d0) →
      Deserializer.deserialize_option f d = (Except.ok none, d0)) ∧
    (∀ (α : Type) (f : Deserializer → Except Error α × Deserializer)
      (d d0 d1 : Deserializer) (x : α), d.array = (Except.ok (Len.Len 1), d0) →
      f d0 = (Except.ok x, d1) →
      Deserializer.deserialize_option f d = (Except.ok (some x), d1)) ∧
    (∀ (α : Type) (f : Deserializer → Except Error α × Deserializer)
      (d d0 : Deserializer) (n : Nat), d.array = (Except.ok (Len.Len n), d0) →
      2 ≤ n →
      ∃ msg, Deserializer.deserialize_option f d =
        (Except.error (Error.CustomError msg), d0)) ∧
    (∀ (α : Type) (f : Deserializer → Except Error α × Deserializer)
      (d d0 : Deserializer), d.array = (Except.ok Len.Indefinite, d0) →
      ∃ msg, Deserializer.deserialize_option f d =
        (Except.error (Error.CustomError msg), d0)) ∧
    (∀ (α : Type) (f : Deserializer → Except Error α × Deserializer)
      (d d2 : Deserializer) (x : Option α),
      Deserializer.deserialize_option f d = (Except.ok x, d2) →
      ∃ d0, d.array = (Except.ok (Len.Len 0), d0) ∨
        d.array = (Except.ok (Len.Len 1), d0)) := by
  refine ⟨?_, ?_, ?_, ?_, ?_⟩
  · intro α f d d0 h
    unfold Deserializer.deserialize_option
    rw [h]
  · intro α f d d0 d1 x h hf
    unfold Deserializer.deserialize_option
    rw [h]
    simp only [hf]
  · intro α f d d0 n h hn
    obtain ⟨m, rfl⟩ : ∃ m, n = m + 2 := ⟨n - 2, by omega⟩
    refine ⟨"Invalid Option<T>: received array of " ++ lenRepr (Len.Len (m + 2)) ++
      " elements", ?_⟩
    unfold Deserializer.deserialize_option
    rw [h]
    rfl
  · intro α f d d0 h
    refine ⟨"Invalid Option<T>: received array of " ++ lenRepr Len.Indefinite ++
      " elements", ?_⟩
    unfold Deserializer.deserialize_option
    rw [h]
  · intro α f d d2 x h
    unfold Deserializer.deserialize_option at h
    cases ha : d.array with
    | mk r d0 =>
      cases r with
      | error e => rw [ha] at h; simp at h
      | ok len =>
        rw [ha] at h
        cases len with
        | Indefinite => simp at h
        | Len n =>
          match n with
          | 0 => exact ⟨d0, Or.inl rfl⟩
          | 1 => exact ⟨d0, Or.inr rfl⟩
          | m + 2 => simp at h

/-- Witness for C7: with the `u8` element decoder, the empty array
yields `none`, the singleton array `[5]` yields `some 5`, a two-element
array is rejected, and the indefinite array is rejected. -/
theorem claim_C7_witness :
    Deserializer.deserialize_option Deserializer.deserialize_u8 ⟨[0x80]⟩ =
      (Except.ok none, ⟨[]⟩) ∧
    Deserializer.deserialize_option Deserializer.deserialize_u8 ⟨[0x81, 0x05]⟩ =
      (Except.ok (some 5), ⟨[]⟩) ∧
    (∃ msg, Deserializer.deserialize_option Deserializer.deserialize_u8
      ⟨[0x82, 0x00, 0x00]⟩ = (Except.error (Error.CustomError msg), ⟨[0x00, 0x00]⟩)) ∧
    (∃ msg, Deserializer.deserialize_option Deserializer.deserialize_u8
      ⟨[0x9f, 0xff]⟩ = (Except.error (Error.CustomError msg), ⟨[0xff]⟩)) := by
  refine ⟨?_, ?_, ?_, ?_⟩
  · exact claim_C7.1 Nat Deserializer.deserialize_u8 ⟨[0x80]⟩ ⟨[]⟩ (by rfl)
  · exact claim_C7.2.1 Nat Deserializer.deserialize_u8 ⟨[0x81, 0x05]⟩ ⟨[0x05]⟩ ⟨[]⟩ 5
      (by rfl) (by rfl)
  · exact claim_C7.2.2.1 Nat Deserializer.deserialize_u8 ⟨[0x82, 0x00, 0x00]⟩
      ⟨[0x00, 0x00]⟩ 2 (by rfl) (by omega)
  · exact claim_C7.2.2.2.1 Nat Deserializer.deserialize_u8 ⟨[0x9f, 0xff]⟩ ⟨[0xff]⟩ (by rfl)

/-- Claim C10: when a well-formed unsigned integer exceeds the target
width's maximum, the fixed-width decoders fail with the width-specific
overflow error only after the integer's complete encoding has been
consumed: the state paired with the error is the post-value state of
`unsigned_integer` — the cursor stands past the offending value (the
header and its extension bytes are gone), so the failure is not atomic
with respect to the read cursor. -/
theorem claim_C10 :
    (∀ (d : Deserializer) (n : Nat) (d2 : Deserializer),
      d.unsigned_integer = (Except.ok n, d2) → 255 < n →
      d.deserialize_u8 = (Except.error Error.ExpectedU8, d2) ∧
        (∃ sz, d.cbor_len = Except.ok (Len.Len n, sz) ∧ d2 = d.advance (1 + sz)) ∧
        d2.buf.length < d.buf.length) ∧
    (∀ (d : Deserializer) (n : Nat) (d2 : Deserializer),
      d.unsigned_integer = (Except.ok n, d2) → 65535 < n →
      d.deserialize_u16 = (Except.error Error.ExpectedU16, d2) ∧
        (∃ sz, d.cbor_len = Except.ok (Len.Len n, sz) ∧ d2 = d.advance (1 + sz)) ∧
        d2.buf.length < d.buf.length) ∧
    (∀ (d : Deserializer) (n : Nat) (d2 : Deserializer),
      d.unsigned_integer = (Except.ok n, d2) → 4294967295 < n →
      d.deserialize_u32 = (Except.error Error.ExpectedU32, d2) ∧
        (∃ sz, d.cbor_len = Except.ok (Len.Len n, sz) ∧ d2 = d.advance (1 + sz)) ∧
        d2.buf.length < d.buf.length) := by
  refine ⟨?_, ?_, ?_⟩
  · intro d n d2 h hn
    obtain ⟨sz, h1, h2, h3, _⟩ := unsigned_integer_ok h
    refine ⟨?_, ⟨sz, h1, h2⟩, ?_⟩
    · unfold Deserializer.deserialize_u8
      rw [h]
      simp [hn]
    · rw [h2]
      simp [Deserializer.advance]
      omega
  · intro d n d2 h hn
    obtain ⟨sz, h1, h2, h3, _⟩ := unsigned_integer_ok h
    refine ⟨?_, ⟨sz, h1, h2⟩, ?_⟩
    · unfold Deserializer.deserialize_u16
      rw [h]
      simp [hn]
    · rw [h2]
      simp [Deserializer.advance]
      omega
  · intro d n d2 h hn
    obtain ⟨sz, h1, h2, h3, _⟩ := unsigned_integer_ok h
    refine ⟨?_, ⟨sz, h1, h2⟩, ?_⟩
    · unfold Deserializer.deserialize_u32
      rw [h]
      simp [hn]
    · rw [h2]
      simp [Deserializer.advance]
      omega

/-- Witness for C10: the two-byte encoding of 256 overflows `u8` with
the whole encoding (3 bytes) already consumed. -/
theorem claim_C10_witness :
    Deserializer.deserialize_u8 ⟨[0x19, 0x01, 0x00]⟩ =
      (Except.error Error.ExpectedU8, ⟨[]⟩) ∧
    (∃ sz, Deserializer.cbor_len ⟨[0x19, 0x01, 0x00]⟩ = Except.ok (Len.Len 256, sz) ∧
      (⟨[]⟩ : Deserializer) = Deserializer.advance ⟨[0x19, 0x01, 0x00]⟩ (1 + sz)) ∧
    (Deserializer.mk []).buf.length < (Deserializer.mk [0x19, 0x01, 0x00]).buf.length := by
  exact claim_C10.1 ⟨[0x19, 0x01, 0x00]⟩ 256 ⟨[]⟩ (by rfl) (by omega)

/-- Claim C6 (bug evaluation): the spec states no decoding operation
panics, for every definite header value `v` up to `2 ^ 64 - 1`.  At
`v = 2 ^ 63` (input `[0x3b, 0x80, 0, 0, 0, 0, 0, 0, 0]`) the source
computes `-(v as i64) - 1` stepwise: the cast yields `i64::MIN` and the
intermediate negation `-(v as i64)` does not fit `i64`, so the
negation overflows (a panic when overflow checks are enabled, as in
debug/test builds); under the wrapping model the operation returns
`2 ^ 63 - 1` without any error.  The final composite value happens to
be representable, so only the evaluation order makes the intermediate
overflow. -/
theorem claim_C6 :
    (Deserializer.negative_integer
      ⟨[0x3b, 0x80, 0x00, 0x00, 0x00, 0x00, 0x00, 0x00, 0x00]⟩).1 =
        Except.ok (2 ^ 63 - 1) ∧
    i64OfU64 (2 ^ 63) = -(2 ^ 63) ∧
    i64InRangeB (-(i64OfU64 (2 ^ 63))) = false ∧
    i64InRangeB (-(i64OfU64 (2 ^ 63)) - 1) = true := by
  refine ⟨by rfl, by rfl, by rfl, by rfl⟩
